import Mathlib

/-!
# Verification of the realtime client's conversation engine and event bus

A shallow embedding of the repository's core components:

* `RealtimeEventHandler` (the event bus), from `src/lib/event_handler.js`
  and the variant in `src/unnamed/part_000`.  JavaScript objects used as
  string-keyed maps (`this.eventHandlers`, `this.itemLookup`, ...) are
  embedded as association lists with unique keys in insertion order, which
  is exactly the observable behavior of a JS object used as a dictionary.
  Listener callbacks are embedded as opaque listener ids together with an
  environment mapping each id to the finite list of bus operations the
  callback performs when invoked (registering further listeners, raising).
* `RealtimeConversation` (the conversation reconstruction engine), from
  `src/lib/conversation.js`.  JavaScript in-place mutation of an item that
  is shared between `itemLookup` and `items` is embedded by keeping the
  item store in `itemLookup` and letting `items` hold the insertion-ordered
  ids; this mirrors the aliasing (mutating through the lookup is visible in
  the sequence).  A thrown JS exception is embedded by returning the state
  as mutated so far together with an error value, so atomicity claims are
  theorems, not artifacts of the embedding.
* `waitForNext`, embedded as a small labelled transition system over the
  waiter's observable state (registered listener, pending timer, performed
  promise resolutions).
-/

namespace Realtime

/-! ## Association lists: JS objects used as string-keyed dictionaries -/

/-- Lookup `m[k]` in a JS object embedded as an association list. -/
def aget {α : Type} (k : String) : List (String × α) → Option α
  | [] => none
  | (k', v) :: rest => if k' = k then some v else aget k rest

/-- Assignment `m[k] = v`: overwrite in place if the key exists, otherwise
append the new key in insertion order (JS object key order). -/
def aset {α : Type} (k : String) (v : α) : List (String × α) → List (String × α)
  | [] => [(k, v)]
  | (k', v') :: rest => if k' = k then (k, v) :: rest else (k', v') :: aset k v rest

/-- Deletion `delete m[k]`.  JS object keys are unique, so removing every
occurrence of the key coincides with removing the (single) entry. -/
def aerase {α : Type} (k : String) : List (String × α) → List (String × α)
  | [] => []
  | (k', v') :: rest => if k' = k then aerase k rest else (k', v') :: aerase k rest

theorem aget_aset_self {α : Type} (k : String) (v : α) (m : List (String × α)) :
    aget k (aset k v m) = some v := by
  induction m with
  | nil => simp [aget, aset]
  | cons p rest ih =>
    by_cases h : p.1 = k <;> simp [aget, aset, h, ih]

theorem aget_aset_ne {α : Type} {k k' : String} (h : k' ≠ k) (v : α)
    (m : List (String × α)) : aget k' (aset k v m) = aget k' m := by
  have hk : ¬k = k' := fun hh => h hh.symm
  induction m with
  | nil => simp [aget, aset, hk]
  | cons p rest ih =>
    by_cases hp : p.1 = k
    · subst hp
      simp [aget, aset, hk]
    · simp only [aset, if_neg hp, aget]
      by_cases hk' : p.1 = k' <;> simp [hk', ih]

theorem aget_aerase_self {α : Type} (k : String) (m : List (String × α)) :
    aget k (aerase k m) = none := by
  induction m with
  | nil => simp [aget, aerase]
  | cons p rest ih =>
    by_cases h : p.1 = k <;> simp [aget, aerase, h, ih]

theorem aerase_of_aget_none {α : Type} {k : String} {m : List (String × α)}
    (h : aget k m = none) : aerase k m = m := by
  induction m with
  | nil => rfl
  | cons p rest ih =>
    by_cases hp : p.1 = k
    · simp [aget, hp] at h
    · simp only [aget, if_neg hp] at h
      simp [aerase, hp, ih h]

theorem aset_of_aget_none {α : Type} {k : String} {m : List (String × α)} (v : α)
    (h : aget k m = none) : aset k v m = m ++ [(k, v)] := by
  induction m with
  | nil => rfl
  | cons p rest ih =>
    by_cases hp : p.1 = k
    · simp [aget, hp] at h
    · simp only [aget, if_neg hp] at h
      simp [aset, hp, ih h]

theorem aget_eq_none_iff {α : Type} (k : String) (m : List (String × α)) :
    aget k m = none ↔ k ∉ m.map Prod.fst := by
  induction m with
  | nil => simp [aget]
  | cons p rest ih =>
    by_cases hp : p.1 = k
    · subst hp
      simp [aget]
    · have hk : ¬k = p.1 := fun hh => hp hh.symm
      simp [aget, hp, ih, hk]

theorem map_fst_aset_of_aget_some {α : Type} {k : String} {m : List (String × α)}
    {w : α} (h : aget k m = some w) (v : α) :
    (aset k v m).map Prod.fst = m.map Prod.fst := by
  induction m with
  | nil => simp [aget] at h
  | cons p rest ih =>
    by_cases hp : p.1 = k
    · simp [aset, hp]
    · simp only [aget, if_neg hp] at h
      simp [aset, hp, ih h]

theorem map_fst_aerase {α : Type} (k : String) (m : List (String × α))
    (hnd : (m.map Prod.fst).Nodup) :
    (aerase k m).map Prod.fst = (m.map Prod.fst).erase k := by
  induction m with
  | nil => rfl
  | cons p rest ih =>
    simp only [List.map_cons, List.nodup_cons] at hnd
    by_cases hp : p.1 = k
    · subst hp
      have : aget p.1 rest = none := (aget_eq_none_iff _ _).mpr hnd.1
      rw [aerase, if_pos rfl, aerase_of_aget_none this, List.map_cons,
        List.erase_cons_head]
    · rw [aerase, if_neg hp, List.map_cons, List.map_cons,
        List.erase_cons_tail, ih hnd.2]
      simp [hp]

theorem mem_of_aget_some {α : Type} {k : String} {m : List (String × α)} {v : α}
    (h : aget k m = some v) : (k, v) ∈ m := by
  induction m with
  | nil => simp [aget] at h
  | cons p rest ih =>
    by_cases hp : p.1 = k
    · subst hp
      simp [aget] at h
      simp [← h]
    · simp only [aget, if_neg hp] at h
      exact List.mem_cons_of_mem _ (ih h)

theorem mem_aset {α : Type} {k : String} {v : α} {m : List (String × α)} {p : String × α}
    (h : p ∈ aset k v m) : p = (k, v) ∨ p ∈ m := by
  induction m with
  | nil => simpa [aset] using h
  | cons q rest ih =>
    by_cases hq : q.1 = k
    · simp only [aset, if_pos hq, List.mem_cons] at h
      rcases h with h | h
      · exact Or.inl h
      · exact Or.inr (List.mem_cons_of_mem _ h)
    · simp only [aset, if_neg hq, List.mem_cons] at h
      rcases h with h | h
      · exact Or.inr (by simp [h])
      · rcases ih h with h' | h'
        · exact Or.inl h'
        · exact Or.inr (List.mem_cons_of_mem _ h')

/-! ## The event bus (`RealtimeEventHandler`)

`src/lib/event_handler.js` lines 18–246, and the variant
`src/unnamed/part_000` lines 3–105.  A listener callback is embedded as an
id; an environment `Env` gives, for each id, the bus operations the
callback body performs when it runs (in order), with `.raise` marking the
point at which the callback throws. -/

/-- A listener callback identity. -/
abbrev LId := Nat

/-- One bus operation performed by a running listener callback body. -/
inductive LAction where
  /-- the callback calls `this.on(name, l)` -/
  | onA (name : String) (l : LId)
  /-- the callback calls `this.onNext(name, l)` -/
  | onNextA (name : String) (l : LId)
  /-- the callback throws at this point (its remaining body is skipped) -/
  | raise
  /-- a step with no effect on the bus -/
  | nop
  deriving DecidableEq, Repr

/-- The behavior of each listener callback body. -/
abbrev Env := LId → List LAction

/-- The bus registries: `this.eventHandlers` and `this.nextEventHandlers`. -/
structure Bus where
  eventHandlers : List (String × List LId)
  nextEventHandlers : List (String × List LId)
  deriving DecidableEq, Repr

/-- A freshly constructed handler (`constructor`, event_handler.js line 23). -/
def emptyBus : Bus := { eventHandlers := [], nextEventHandlers := [] }

/-- `m[eventName] = m[eventName] || []; m[eventName].push(callback)`. -/
def addHandler (name : String) (l : LId) (m : List (String × List LId)) :
    List (String × List LId) :=
  match aget name m with
  | some ls => aset name (ls ++ [l]) m
  | none => aset name [l] m

/-- `on(eventName, callback)` (event_handler.js lines 49–58). -/
def busOn (b : Bus) (name : String) (l : LId) : Bus :=
  { b with eventHandlers := addHandler name l b.eventHandlers }

/-- `onNext(eventName, callback)` (event_handler.js lines 66–75). -/
def busOnNext (b : Bus) (name : String) (l : LId) : Bus :=
  { b with nextEventHandlers := addHandler name l b.nextEventHandlers }

/-- Run a callback body: perform its bus operations in order; a `.raise`
stops the body and reports that the callback threw. -/
def runActions : List LAction → Bus → Bus × Bool
  | [], b => (b, false)
  | .raise :: _, b => (b, true)
  | .onA n l :: rest, b => runActions rest (busOn b n l)
  | .onNextA n l :: rest, b => runActions rest (busOnNext b n l)
  | .nop :: rest, b => runActions rest b

/-- `dispatch(eventName, event)` from `src/lib/event_handler.js` lines
198–245: snapshot both registries with `[].concat(...)`, invoke the
persistent snapshot then the one-shot snapshot, each invocation wrapped in
`try { ... } catch (error) { console.error(...) }`, then
`delete this.nextEventHandlers[eventName]` and `return true`.  The returned
trace records the invoked listeners with the payload each received. -/
def dispatch (env : Env) (b : Bus) (name : String) (payload : Nat) :
    Bus × List (LId × Nat) × Bool :=
  let handlers := (aget name b.eventHandlers).getD []
  let nextHandlers := (aget name b.nextEventHandlers).getD []
  let step := fun (acc : Bus × List (LId × Nat)) (l : LId) =>
    ((runActions (env l) acc.1).1, acc.2 ++ [(l, payload)])
  let r1 := handlers.foldl step (b, [])
  let r2 := nextHandlers.foldl step r1
  ({ r2.1 with nextEventHandlers := aerase name r2.1.nextEventHandlers }, r2.2, true)

/-- Outcome of the `src/unnamed/part_000` dispatch, which has no
try/catch: either it returns `true` or a listener's exception escapes. -/
inductive UOutcome where
  | ok
  | threw
  deriving DecidableEq, Repr

/-- Invoke the listeners of one snapshot without any try/catch: a throwing
listener aborts the remainder (part_000 lines 84–89). -/
def runListU (env : Env) (payload : Nat) :
    List LId → Bus → Bus × List (LId × Nat) × Bool
  | [], b => (b, [], false)
  | l :: rest, b =>
    let r := runActions (env l) b
    if r.2 then (r.1, [(l, payload)], true)
    else
      let r' := runListU env payload rest r.1
      (r'.1, (l, payload) :: r'.2.1, r'.2.2)

/-- `dispatch(eventName, event)` from `src/unnamed/part_000` lines 81–92:
same snapshots and order, but no try/catch, so a listener's exception
propagates out of `dispatch`, skipping the remaining listeners and the
final `delete this.nextEventHandlers[eventName]`. -/
def dispatchU (env : Env) (b : Bus) (name : String) (payload : Nat) :
    Bus × List (LId × Nat) × UOutcome :=
  let handlers := (aget name b.eventHandlers).getD []
  let nextHandlers := (aget name b.nextEventHandlers).getD []
  let r1 := runListU env payload handlers b
  if r1.2.2 then (r1.1, r1.2.1, .threw)
  else
    let r2 := runListU env payload nextHandlers r1.1
    if r2.2.2 then (r2.1, r1.2.1 ++ r2.2.1, .threw)
    else ({ r2.1 with nextEventHandlers := aerase name r2.1.nextEventHandlers },
      r1.2.1 ++ r2.2.1, .ok)

/-- A registration call made before a dispatch (claim C2's scenario). -/
inductive RegOp where
  | onR (name : String) (l : LId)
  | onNextR (name : String) (l : LId)
  deriving DecidableEq, Repr

/-- Apply one registration call to the bus. -/
def applyReg (b : Bus) : RegOp → Bus
  | .onR n l => busOn b n l
  | .onNextR n l => busOnNext b n l

/-- Apply a sequence of `on`/`onNext` registration calls in order. -/
def applyRegs (b : Bus) (rs : List RegOp) : Bus := rs.foldl applyReg b

/-- The persistent listeners a registration sequence registers for `name`,
in registration order. -/
def onsOf (name : String) : List RegOp → List LId
  | [] => []
  | .onR n l :: rest => if n = name then l :: onsOf name rest else onsOf name rest
  | .onNextR _ _ :: rest => onsOf name rest

/-- The one-shot listeners a registration sequence registers for `name`,
in registration order. -/
def nextsOf (name : String) : List RegOp → List LId
  | [] => []
  | .onR _ _ :: rest => nextsOf name rest
  | .onNextR n l :: rest => if n = name then l :: nextsOf name rest else nextsOf name rest

/-! ## `waitForNext` (`src/lib/event_handler.js` lines 157–190)

The observable state of one `waitForNext(eventName, timeoutMs)` call with a
finite timeout, restricted to its event name: whether the transient handler
it registered via `onNext` is still in the one-shot registry, whether its
timer is still pending, and the `resolve` calls performed so far.  The two
events the JS event loop can deliver to this waiter are a `dispatch` of its
event name and the firing of its timer; both are single-threaded and are
serialized by the event loop, so a run is a list of such occurrences. -/

structure WaitWorld where
  /-- the transient handler is in `nextEventHandlers[eventName]` -/
  registered : Bool
  /-- the `setTimeout` timer is pending (set and not yet cleared or fired) -/
  timerActive : Bool
  /-- the arguments of the `resolve` calls performed, in order
  (`some payload` from the dispatch path, `none` from the timeout path) -/
  resolutions : List (Option Nat)
  deriving DecidableEq, Repr

/-- State right after `waitForNext(eventName, timeoutMs)` returns its
promise: handler registered (line 171), timer set (lines 176–184), nothing
resolved. -/
def waitInit : WaitWorld := { registered := true, timerActive := true, resolutions := [] }

/-- An occurrence the event loop can deliver to the waiter. -/
inductive WStep where
  /-- `dispatch(eventName, payload)` runs (event_handler.js lines 198–245) -/
  | dispatchEv (p : Nat)
  /-- the `setTimeout` callback fires (lines 176–183); a cleared timer
  never fires, which the transition reflects by doing nothing when the
  timer is no longer active -/
  | timeoutEv
  deriving DecidableEq, Repr

/-- One occurrence, as the code handles it.

* `dispatch`: if the transient handler is still registered it is in the
  one-shot snapshot, so it runs: `clearTimeout(timer)` (line 162),
  `this.offNext(eventName, handler)` (line 168), `resolve(event)`
  (line 169); afterwards dispatch deletes the one-shot registry for the
  name (line 240).  If it is not registered (already removed by the
  timeout path), dispatch only clears the registry for the name.
* `timeout`: if the timer is still pending, the callback removes the
  handler (line 177) and calls `resolve(null)` (line 182); a cleared or
  already-fired timer does nothing. -/
def wstep (w : WaitWorld) : WStep → WaitWorld
  | .dispatchEv p =>
    if w.registered then
      { registered := false, timerActive := false, resolutions := w.resolutions ++ [some p] }
    else { w with registered := false }
  | .timeoutEv =>
    if w.timerActive then
      { registered := false, timerActive := false, resolutions := w.resolutions ++ [none] }
    else w

/-- Run the waiter through a sequence of occurrences. -/
def wrun (w : WaitWorld) (steps : List WStep) : WaitWorld := steps.foldl wstep w

/-- The payload the waiter's promise is resolved with when this occurrence
is the first to reach it. -/
def wOutcome : WStep → Option Nat
  | .dispatchEv p => some p
  | .timeoutEv => none

/-! ## The conversation engine (`src/lib/conversation.js`)

PCM16 samples are embedded as integers; an `Int16Array` is a `List Int`.
A JS field that may be `undefined` where the code can observe the
difference is embedded as an `Option`; in particular `formatted.audio`
becomes `undefined` when `conversation.item.created` adopts a queued
speech record that never received sliced audio (conversation.js line 42
reads `.audio` off a record created by `speech_started` alone). -/

/-- A PCM16 sample value. -/
abbrev Sample := Int

/-- One entry of an item's `content` array, with the fields the engine
reads or writes (`type`, `text`, `transcript`). -/
structure ContentPart where
  type : String := ""
  text : String := ""
  transcript : String := ""
  deriving DecidableEq, Repr

/-- The inbound item payload of `conversation.item.created` /
`response.output_item.*` events, before the engine decorates it. -/
structure EventItem where
  id : String := ""
  type : String := ""
  role : String := ""
  status : String := ""
  content : Option (List ContentPart) := none
  name : String := ""
  call_id : String := ""
  output : String := ""
  arguments : String := ""
  deriving DecidableEq, Repr

/-- `formatted.tool`, initialized by `conversation.item.created` for
`function_call` items (conversation.js lines 72–77). -/
structure FormattedTool where
  type : String
  name : String
  call_id : String
  arguments : String
  deriving DecidableEq, Repr

/-- An item's derived `formatted` view (conversation.js lines 35–39 and
the fields later handlers add). -/
structure Formatted where
  audio : Option (List Sample)
  text : String
  transcript : String
  tool : Option FormattedTool
  output : Option String
  deriving DecidableEq, Repr

/-- `newItem.formatted = { audio: new Int16Array(0), text: '',
transcript: '' }` (conversation.js lines 35–39). -/
def initFormatted : Formatted :=
  { audio := some [], text := "", transcript := "", tool := none, output := none }

/-- A stored conversation item: the deep-copied inbound fields plus the
`formatted` view the engine attaches. -/
structure Item where
  id : String
  type : String
  role : String
  status : String
  content : Option (List ContentPart)
  name : String
  call_id : String
  output : String
  arguments : String
  formatted : Formatted
  deriving DecidableEq, Repr

/-- `_.cloneDeep(item)` followed by the `formatted` initialization: a value
copy of the inbound item decorated with an empty formatted view. -/
def itemOfEvent (ei : EventItem) : Item :=
  { id := ei.id, type := ei.type, role := ei.role, status := ei.status,
    content := ei.content, name := ei.name, call_id := ei.call_id,
    output := ei.output, arguments := ei.arguments, formatted := initFormatted }

/-- A response envelope (`response.created` payload / stored response). -/
structure Response where
  id : String
  output : List String
  deriving DecidableEq, Repr

/-- A queued speech record (`this.queuedSpeechItems[item_id]`). -/
structure SpeechRec where
  audio_start_ms : Nat
  audio_end_ms : Option Nat
  audio : Option (List Sample)
  deriving DecidableEq, Repr

/-- An inbound protocol event, with the fields the engine reads.  `event_id`
and `type` are optional because `processEvent` checks their presence;
payload fields are optional because the remote may omit them. -/
structure Event where
  event_id : Option String := none
  type : Option String := none
  item : Option EventItem := none
  item_id : Option String := none
  audio_start_ms : Option Nat := none
  audio_end_ms : Option Nat := none
  content_index : Option Nat := none
  transcript : Option String := none
  delta : Option String := none
  part : Option ContentPart := none
  response : Option Response := none
  response_id : Option String := none
  deriving DecidableEq, Repr

/-- The engine's state (`clear()`, conversation.js lines 257–265).  `items`
holds the insertion-ordered item ids; the items themselves live in
`itemLookup`, mirroring the JS aliasing of the two structures.  Likewise
`responses`/`responseLookup`. -/
structure Conv where
  itemLookup : List (String × Item)
  items : List String
  responseLookup : List (String × Response)
  responses : List String
  queuedSpeechItems : List (String × SpeechRec)
  queuedTranscriptItems : List (String × String)
  queuedInputAudio : Option (List Sample)
  deriving DecidableEq, Repr

/-- The state a fresh or `clear()`-ed engine is in. -/
def emptyConv : Conv :=
  { itemLookup := [], items := [], responseLookup := [], responses := [],
    queuedSpeechItems := [], queuedTranscriptItems := [], queuedInputAudio := none }

/-- `clear()` (conversation.js lines 257–265). -/
def Conv.clear (_c : Conv) : Conv := emptyConv

/-- `queueInputAudio(inputAudio)` (conversation.js lines 271–273). -/
def Conv.queueInputAudio (c : Conv) (inputAudio : List Sample) : Conv :=
  { c with queuedInputAudio := some inputAudio }

/-- The error conditions `processEvent` and the handlers raise, in the
spec's taxonomy (§7).  `typeError` embeds a JS `TypeError` (or the
`mergeInt16Arrays` argument check) raised by touching a field of
`undefined` — a failure mode outside the four named conditions. -/
inductive ConvError where
  | protocolViolation (field : String)
  | unknownEventType (type : String)
  | referenceNotFound (context : String) (id : String)
  | encodingError
  | typeError (context : String)
  deriving DecidableEq, Repr

/-- The `{ item, delta }` value a handler returns. -/
inductive Delta where
  | transcript (s : String)
  | text (s : String)
  | audio (a : List Sample)
  | arguments (s : String)
  deriving DecidableEq, Repr

/-- A handler's `{ item, delta }` return value. -/
structure ProcResult where
  item : Option Item
  delta : Option Delta
  deriving DecidableEq, Repr

/-- The outcome of `processEvent`: a returned `{ item, delta }` or a thrown
error.  The state is returned alongside (see `Handler`), because a JS throw
keeps whatever was mutated before it. -/
inductive PResult where
  | ok (r : ProcResult)
  | err (e : ConvError)
  deriving DecidableEq, Repr

/-- `event.item_id` as an object key.  JS coerces an `undefined` key to the
string `"undefined"`. -/
def eStr : Option String → String
  | some s => s
  | none => "undefined"

/-- `RealtimeConversation.defaultFrequency` (conversation.js line 21). -/
def defaultFrequency : Nat := 24000

/-- `Math.floor((ms * defaultFrequency) / 1000)` on non-negative protocol
milliseconds is natural-number division. -/
def msToSamples (ms : Nat) : Nat := ms * defaultFrequency / 1000

/-- `buf.slice(startIndex, endIndex)` on an `Int16Array`: the samples from
`startIndex` (inclusive) to `endIndex` (exclusive), clamped to the buffer. -/
def jsSlice (buf : List Sample) (startIndex endIndex : Nat) : List Sample :=
  (buf.take endIndex).drop startIndex

/-- `parts[i].f = g(parts[i].f)`: update content part `i`; `none` when the
index is out of range (in JS the assignment would throw a `TypeError`). -/
def setPart (content : Option (List ContentPart)) (i : Nat)
    (f : ContentPart → ContentPart) : Option (List ContentPart) :=
  match content with
  | none => none
  | some parts =>
    match parts[i]? with
    | some p => some (parts.set i (f p))
    | none => none

/-! ### Base64 / PCM16 decoding (`src/lib/utils.js` lines 25–33)

`RealtimeUtils.base64ToArrayBuffer` calls the platform `atob` (an external
collaborator per spec §6) and wraps the bytes; `new Int16Array(buffer)`
then views them as little-endian signed 16-bit samples and throws when the
byte length is odd.  The decoder below embeds standard strict base64
(`atob` raises on malformed input). -/

/-- The base64 alphabet value of a character. -/
def b64Val (ch : Char) : Option Nat :=
  if 'A' ≤ ch ∧ ch ≤ 'Z' then some (ch.toNat - 65)
  else if 'a' ≤ ch ∧ ch ≤ 'z' then some (ch.toNat - 97 + 26)
  else if '0' ≤ ch ∧ ch ≤ '9' then some (ch.toNat - 48 + 52)
  else if ch = '+' then some 62
  else if ch = '/' then some 63
  else none

/-- Decode one base64 quantum of four characters into one, two or three
bytes, honoring `=` padding. -/
def b64Quad (a b c d : Char) : Option (List Nat) :=
  match b64Val a, b64Val b with
  | some va, some vb =>
    if c = '=' then
      if d = '=' then some [va * 4 + vb / 16] else none
    else
      match b64Val c with
      | some vc =>
        if d = '=' then some [va * 4 + vb / 16, vb % 16 * 16 + vc / 4]
        else
          match b64Val d with
          | some vd => some [va * 4 + vb / 16, vb % 16 * 16 + vc / 4, vc % 4 * 64 + vd]
          | none => none
      | none => none
  | _, _ => none

/-- Decode a base64 character stream (length a multiple of four, padding
only in the final quantum) into bytes; `none` on malformed input. -/
def b64DecodeChars : List Char → Option (List Nat)
  | [] => some []
  | a :: b :: c :: d :: rest =>
    match b64Quad a b c d, rest with
    | some bytes, [] => some bytes
    | some bytes, rest =>
      if c = '=' ∨ d = '=' then none
      else (bytes ++ ·) <$> b64DecodeChars rest
    | none, _ => none
  | _ => none

/-- View bytes as little-endian signed 16-bit samples; `none` on an odd
byte count (`new Int16Array(buffer)` throws a `RangeError`). -/
def bytesToInt16 : List Nat → Option (List Sample)
  | [] => some []
  | lo :: hi :: rest =>
    (fun s =>
      (if lo + 256 * hi < 32768 then (lo + 256 * hi : Int)
       else (lo + 256 * hi : Int) - 65536) :: s) <$> bytesToInt16 rest
  | [_] => none

/-- `new Int16Array(RealtimeUtils.base64ToArrayBuffer(delta))`: decode a
base64 audio delta into samples, or fail with an encoding error. -/
def base64ToInt16 (s : String) : Option (List Sample) :=
  (b64DecodeChars s.data).bind bytesToInt16

/-! ### The event processors (`RealtimeConversation.EventProcessors`)

Each handler takes the current state and returns the state as left by the
handler — including the mutations performed before a throw — together with
the returned `{ item, delta }` or the thrown error. -/

/-- `'conversation.item.created'` (conversation.js lines 27–84). -/
def procItemCreated (c : Conv) (e : Event) : Conv × PResult :=
  match e.item with
  | none => (c, .err (.typeError "conversation.item.created: item"))
  | some ei =>
    -- line 31: skip the insertion if the id is already present
    let present := (aget ei.id c.itemLookup).isSome
    -- lines 35–39: initialize the formatted view (on the clone)
    let f0 := initFormatted
    -- lines 41–44: adopt queued speech audio and delete the record
    let sp := aget ei.id c.queuedSpeechItems
    let f1 := match sp with
      | some rec => { f0 with audio := rec.audio }
      | none => f0
    let qs := match sp with
      | some _ => aerase ei.id c.queuedSpeechItems
      | none => c.queuedSpeechItems
    -- lines 46–53: concatenate the text/input_text content parts
    let f2 := match ei.content with
      | some parts =>
        { f1 with
          text := String.join
            ((parts.filter fun p => p.type == "text" || p.type == "input_text").map
              fun p => p.text) }
      | none => f1
    -- lines 55–59: adopt a queued transcript and delete the record
    let tr := aget ei.id c.queuedTranscriptItems
    let f3 := match tr with
      | some t => { f2 with transcript := t }
      | none => f2
    let qt := match tr with
      | some _ => aerase ei.id c.queuedTranscriptItems
      | none => c.queuedTranscriptItems
    -- lines 61–82: derive the status; user messages absorb queued input audio
    let sfq : String × Formatted × Option (List Sample) :=
      if ei.type = "message" then
        if ei.role = "user" then
          match c.queuedInputAudio with
          | some buf => ("completed", { f3 with audio := some buf }, none)
          | none => ("completed", f3, c.queuedInputAudio)
        else ("in_progress", f3, c.queuedInputAudio)
      else if ei.type = "function_call" then
        ("in_progress",
          { f3 with
            tool := some
              { type := "function", name := ei.name,
                call_id := ei.call_id, arguments := "" } },
          c.queuedInputAudio)
      else if ei.type = "function_call_output" then
        ("completed", { f3 with output := some ei.output }, c.queuedInputAudio)
      else (ei.status, f3, c.queuedInputAudio)
    let newItem := { itemOfEvent ei with status := sfq.1, formatted := sfq.2.1 }
    let c' := { c with
      itemLookup := if present then c.itemLookup else aset ei.id newItem c.itemLookup,
      items := if present then c.items else c.items ++ [ei.id],
      queuedSpeechItems := qs,
      queuedTranscriptItems := qt,
      queuedInputAudio := sfq.2.2 }
    (c', .ok { item := some newItem, delta := none })

/-- `'conversation.item.truncated'` (conversation.js lines 85–97).  The
transcript is cleared (line 94) before the audio slice (line 95); slicing
an `undefined` audio field throws after that first mutation. -/
def procItemTruncated (c : Conv) (e : Event) : Conv × PResult :=
  let item_id := eStr e.item_id
  match aget item_id c.itemLookup with
  | none => (c, .err (.referenceNotFound "item.truncated" item_id))
  | some item =>
    let endIndex := msToSamples (e.audio_end_ms.getD 0)
    let item1 := { item with formatted := { item.formatted with transcript := "" } }
    match item1.formatted.audio with
    | none =>
      ({ c with itemLookup := aset item_id item1 c.itemLookup },
        .err (.typeError "item.truncated: formatted.audio slice"))
    | some a =>
      let item2 := { item1 with formatted :=
        { item1.formatted with audio := some (a.take endIndex) } }
      ({ c with itemLookup := aset item_id item2 c.itemLookup },
        .ok { item := some item2, delta := none })

/-- `'conversation.item.deleted'` (conversation.js lines 98–110). -/
def procItemDeleted (c : Conv) (e : Event) : Conv × PResult :=
  let item_id := eStr e.item_id
  match aget item_id c.itemLookup with
  | none => (c, .err (.referenceNotFound "item.deleted" item_id))
  | some item =>
    ({ c with
        itemLookup := aerase item.id c.itemLookup,
        items := c.items.erase item.id },
      .ok { item := some item, delta := none })

/-- `'conversation.item.input_audio_transcription.completed'`
(conversation.js lines 111–126). -/
def procTranscriptionCompleted (c : Conv) (e : Event) : Conv × PResult :=
  let item_id := eStr e.item_id
  let transcript := e.transcript.getD ""
  let formattedTranscript := if transcript = "" then " " else transcript
  match aget item_id c.itemLookup with
  | none =>
    ({ c with
        queuedTranscriptItems :=
          aset item_id formattedTranscript c.queuedTranscriptItems },
      .ok { item := none, delta := none })
  | some item =>
    match setPart item.content (e.content_index.getD 0)
        (fun p => { p with transcript := transcript }) with
    | none => (c, .err (.typeError "input_audio_transcription.completed: content"))
    | some content' =>
      let item1 := { item with
        content := some content',
        formatted := { item.formatted with transcript := formattedTranscript } }
      ({ c with itemLookup := aset item_id item1 c.itemLookup },
        .ok { item := some item1, delta := some (.transcript transcript) })

/-- `'input_audio_buffer.speech_started'` (conversation.js lines 127–131). -/
def procSpeechStarted (c : Conv) (e : Event) : Conv × PResult :=
  let item_id := eStr e.item_id
  ({ c with
      queuedSpeechItems := aset item_id
        { audio_start_ms := e.audio_start_ms.getD 0, audio_end_ms := none, audio := none }
        c.queuedSpeechItems },
    .ok { item := none, delta := none })

/-- `'input_audio_buffer.speech_stopped'` (conversation.js lines 132–149). -/
def procSpeechStopped (c : Conv) (e : Event) (inputAudioBuffer : Option (List Sample)) :
    Conv × PResult :=
  let item_id := eStr e.item_id
  let audio_end_ms := e.audio_end_ms.getD 0
  -- lines 134–136: create the record if speech_started was missed
  let speech0 := match aget item_id c.queuedSpeechItems with
    | some rec => rec
    | none => { audio_start_ms := audio_end_ms, audio_end_ms := none, audio := none }
  let speech1 := { speech0 with audio_end_ms := some audio_end_ms }
  -- lines 139–147: slice the captured buffer when supplied as context
  let speech2 := match inputAudioBuffer with
    | some buf =>
      { speech1 with audio := some (jsSlice buf
          (msToSamples speech1.audio_start_ms) (msToSamples audio_end_ms)) }
    | none => speech1
  ({ c with queuedSpeechItems := aset item_id speech2 c.queuedSpeechItems },
    .ok { item := none, delta := none })

/-- `'response.created'` (conversation.js lines 150–157). -/
def procResponseCreated (c : Conv) (e : Event) : Conv × PResult :=
  match e.response with
  | none => (c, .err (.typeError "response.created: response"))
  | some r =>
    if (aget r.id c.responseLookup).isSome then
      (c, .ok { item := none, delta := none })
    else
      ({ c with
          responseLookup := aset r.id r c.responseLookup,
          responses := c.responses ++ [r.id] },
        .ok { item := none, delta := none })

/-- `'response.output_item.added'` (conversation.js lines 158–168). -/
def procOutputItemAdded (c : Conv) (e : Event) : Conv × PResult :=
  let response_id := eStr e.response_id
  match aget response_id c.responseLookup with
  | none => (c, .err (.referenceNotFound "response.output_item.added" response_id))
  | some r =>
    match e.item with
    | none => (c, .err (.typeError "response.output_item.added: item"))
    | some ei =>
      ({ c with
          responseLookup :=
            aset response_id { r with output := r.output ++ [ei.id] } c.responseLookup },
        .ok { item := none, delta := none })

/-- `'response.output_item.done'` (conversation.js lines 169–182). -/
def procOutputItemDone (c : Conv) (e : Event) : Conv × PResult :=
  match e.item with
  | none => (c, .err (.protocolViolation "item"))
  | some ei =>
    match aget ei.id c.itemLookup with
    | none => (c, .err (.referenceNotFound "response.output_item.done" ei.id))
    | some foundItem =>
      let item1 := { foundItem with status := ei.status }
      ({ c with itemLookup := aset ei.id item1 c.itemLookup },
        .ok { item := some item1, delta := none })

/-- `'response.content_part.added'` (conversation.js lines 183–193). -/
def procContentPartAdded (c : Conv) (e : Event) : Conv × PResult :=
  let item_id := eStr e.item_id
  match aget item_id c.itemLookup with
  | none => (c, .err (.referenceNotFound "response.content_part.added" item_id))
  | some item =>
    match item.content with
    | none => (c, .err (.typeError "response.content_part.added: content"))
    | some parts =>
      let item1 := { item with content := some (parts ++ [e.part.getD {}]) }
      ({ c with itemLookup := aset item_id item1 c.itemLookup },
        .ok { item := some item1, delta := none })

/-- `'response.audio_transcript.delta'` (conversation.js lines 194–205). -/
def procAudioTranscriptDelta (c : Conv) (e : Event) : Conv × PResult :=
  let item_id := eStr e.item_id
  let delta := e.delta.getD ""
  match aget item_id c.itemLookup with
  | none => (c, .err (.referenceNotFound "response.audio_transcript.delta" item_id))
  | some item =>
    match setPart item.content (e.content_index.getD 0)
        (fun p => { p with transcript := p.transcript ++ delta }) with
    | none => (c, .err (.typeError "response.audio_transcript.delta: content"))
    | some content' =>
      let item1 := { item with
        content := some content',
        formatted := { item.formatted with
          transcript := item.formatted.transcript ++ delta } }
      ({ c with itemLookup := aset item_id item1 c.itemLookup },
        .ok { item := some item1, delta := some (.transcript delta) })

/-- `'response.audio.delta'` (conversation.js lines 206–220): decode the
base64 delta, then `mergeInt16Arrays(item.formatted.audio, appendValues)`
(which throws when `formatted.audio` is `undefined`), then store. -/
def procAudioDelta (c : Conv) (e : Event) : Conv × PResult :=
  let item_id := eStr e.item_id
  match aget item_id c.itemLookup with
  | none => (c, .err (.referenceNotFound "response.audio.delta" item_id))
  | some item =>
    match base64ToInt16 (e.delta.getD "") with
    | none => (c, .err .encodingError)
    | some appendValues =>
      match item.formatted.audio with
      | none => (c, .err (.typeError "response.audio.delta: mergeInt16Arrays"))
      | some a =>
        let item1 := { item with formatted :=
          { item.formatted with audio := some (a ++ appendValues) } }
        ({ c with itemLookup := aset item_id item1 c.itemLookup },
          .ok { item := some item1, delta := some (.audio appendValues) })

/-- `'response.text.delta'` (conversation.js lines 221–230). -/
def procTextDelta (c : Conv) (e : Event) : Conv × PResult :=
  let item_id := eStr e.item_id
  let delta := e.delta.getD ""
  match aget item_id c.itemLookup with
  | none => (c, .err (.referenceNotFound "response.text.delta" item_id))
  | some item =>
    match setPart item.content (e.content_index.getD 0)
        (fun p => { p with text := p.text ++ delta }) with
    | none => (c, .err (.typeError "response.text.delta: content"))
    | some content' =>
      let item1 := { item with
        content := some content',
        formatted := { item.formatted with text := item.formatted.text ++ delta } }
      ({ c with itemLookup := aset item_id item1 c.itemLookup },
        .ok { item := some item1, delta := some (.text delta) })

/-- `'response.function_call_arguments.delta'` (conversation.js lines
231–244). -/
def procFnArgsDelta (c : Conv) (e : Event) : Conv × PResult :=
  let item_id := eStr e.item_id
  let delta := e.delta.getD ""
  match aget item_id c.itemLookup with
  | none => (c, .err (.referenceNotFound "response.function_call_arguments.delta" item_id))
  | some item =>
    let item1 := { item with arguments := item.arguments ++ delta }
    let item2 := match item1.formatted.tool with
      | some tool => { item1 with formatted := { item1.formatted with
          tool := some { tool with arguments := tool.arguments ++ delta } } }
      | none => item1
    ({ c with itemLookup := aset item_id item2 c.itemLookup },
      .ok { item := some item2, delta := some (.arguments delta) })

/-- A bound event processor: state and event in, possibly-mutated state and
outcome out (the input-audio buffer context is threaded to the one handler
that uses it). -/
abbrev Handler := Conv → Event → Option (List Sample) → Conv × PResult

/-- The fixed dispatch table `RealtimeConversation.EventProcessors`
(conversation.js lines 26–245), as a map from event type to handler. -/
def EventProcessors (t : String) : Option Handler :=
  match t with
  | "conversation.item.created" => some fun c e _ => procItemCreated c e
  | "conversation.item.truncated" => some fun c e _ => procItemTruncated c e
  | "conversation.item.deleted" => some fun c e _ => procItemDeleted c e
  | "conversation.item.input_audio_transcription.completed" =>
      some fun c e _ => procTranscriptionCompleted c e
  | "input_audio_buffer.speech_started" => some fun c e _ => procSpeechStarted c e
  | "input_audio_buffer.speech_stopped" =>
      some fun c e ctx => procSpeechStopped c e ctx
  | "response.created" => some fun c e _ => procResponseCreated c e
  | "response.output_item.added" => some fun c e _ => procOutputItemAdded c e
  | "response.output_item.done" => some fun c e _ => procOutputItemDone c e
  | "response.content_part.added" => some fun c e _ => procContentPartAdded c e
  | "response.audio_transcript.delta" => some fun c e _ => procAudioTranscriptDelta c e
  | "response.audio.delta" => some fun c e _ => procAudioDelta c e
  | "response.text.delta" => some fun c e _ => procTextDelta c e
  | "response.function_call_arguments.delta" => some fun c e _ => procFnArgsDelta c e
  | _ => none

/-- JS falsiness of the `event.event_id` / `event.type` string fields:
absent or the empty string. -/
def isFalsy : Option String → Bool
  | none => true
  | some s => s.isEmpty

/-- `processEvent(event, ...args)` (conversation.js lines 281–298):
validate `event_id` and `type`, look up the handler in the fixed table,
fail on an unknown type, otherwise run the handler on the state. -/
def Conv.processEvent (c : Conv) (e : Event) (ctx : Option (List Sample)) :
    Conv × PResult :=
  if isFalsy e.event_id then (c, .err (.protocolViolation "event_id"))
  else if isFalsy e.type then (c, .err (.protocolViolation "type"))
  else
    let t := e.type.getD ""
    match EventProcessors t with
    | none => (c, .err (.unknownEventType t))
    | some handler => handler c e ctx

/-- One call on the engine's public mutating surface. -/
inductive ConvOp where
  | procEvent (e : Event) (ctx : Option (List Sample))
  | queueIA (buf : List Sample)
  | clearOp
  deriving Repr

/-- Apply one call; a `processEvent` that throws leaves the state the
handler produced before throwing. -/
def runOp (c : Conv) : ConvOp → Conv
  | .procEvent e ctx => (c.processEvent e ctx).1
  | .queueIA buf => c.queueInputAudio buf
  | .clearOp => c.clear

/-- Apply a call sequence in order. -/
def runOps (c : Conv) (ops : List ConvOp) : Conv := ops.foldl runOp c

/-! ## Dispatch: snapshot and clearing lemmas -/

theorem foldl_step_trace (env : Env) (p : Nat) (ls : List LId) :
    ∀ ac : Bus × List (LId × Nat),
    (ls.foldl (fun acc l => ((runActions (env l) acc.1).1, acc.2 ++ [(l, p)])) ac).2
      = ac.2 ++ ls.map fun l => (l, p) := by
  induction ls with
  | nil => intro ac; simp
  | cons l rest ih =>
    intro ac
    rw [List.foldl_cons, ih]
    simp

/-- The trace of the caught-errors dispatch is exactly the two snapshots,
whatever the listeners do to the registries and whether or not they throw. -/
theorem dispatch_trace (env : Env) (b : Bus) (name : String) (p : Nat) :
    (dispatch env b name p).2.1
      = ((aget name b.eventHandlers).getD []
          ++ (aget name b.nextEventHandlers).getD []).map fun l => (l, p) := by
  simp only [dispatch]
  rw [foldl_step_trace, foldl_step_trace]
  simp

/-- After dispatch, the one-shot registry for the dispatched name is gone. -/
theorem dispatch_clears_next (env : Env) (b : Bus) (name : String) (p : Nat) :
    aget name (dispatch env b name p).1.nextEventHandlers = none := by
  unfold dispatch
  exact aget_aerase_self name _

theorem getD_addHandler_self (name : String) (l : LId) (m : List (String × List LId)) :
    (aget name (addHandler name l m)).getD [] = (aget name m).getD [] ++ [l] := by
  unfold addHandler
  cases h : aget name m <;> simp [h, aget_aset_self]

theorem aget_addHandler_ne {n' name : String} (h : n' ≠ name) (l : LId)
    (m : List (String × List LId)) : aget n' (addHandler name l m) = aget n' m := by
  unfold addHandler
  cases aget name m <;> simp [aget_aset_ne h]

theorem applyRegs_ons (name : String) (rs : List RegOp) :
    ∀ b : Bus, (aget name (applyRegs b rs).eventHandlers).getD []
      = (aget name b.eventHandlers).getD [] ++ onsOf name rs := by
  induction rs with
  | nil => intro b; simp [applyRegs, onsOf]
  | cons r rest ih =>
    intro b
    cases r with
    | onR n l =>
      by_cases hn : n = name
      · subst hn
        simp [applyRegs, onsOf, List.foldl_cons]
        rw [show (applyReg b (RegOp.onR n l)) = busOn b n l from rfl]
        have := ih (busOn b n l)
        simp [applyRegs] at this
        rw [this, busOn, getD_addHandler_self]
        simp
      · simp only [applyRegs, List.foldl_cons, onsOf, if_neg hn]
        have := ih (applyReg b (RegOp.onR n l))
        simp [applyRegs] at this
        rw [this]
        rw [show (applyReg b (RegOp.onR n l)) = busOn b n l from rfl, busOn]
        simp [aget_addHandler_ne (fun hh => hn hh.symm)]
    | onNextR n l =>
      simp only [applyRegs, List.foldl_cons, onsOf]
      have := ih (applyReg b (RegOp.onNextR n l))
      simp [applyRegs] at this
      rw [this]
      rfl

theorem applyRegs_nexts (name : String) (rs : List RegOp) :
    ∀ b : Bus, (aget name (applyRegs b rs).nextEventHandlers).getD []
      = (aget name b.nextEventHandlers).getD [] ++ nextsOf name rs := by
  induction rs with
  | nil => intro b; simp [applyRegs, nextsOf]
  | cons r rest ih =>
    intro b
    cases r with
    | onNextR n l =>
      by_cases hn : n = name
      · subst hn
        simp only [applyRegs, List.foldl_cons, nextsOf, if_pos rfl]
        have := ih (applyReg b (RegOp.onNextR n l))
        simp [applyRegs] at this
        rw [this]
        rw [show (applyReg b (RegOp.onNextR n l)) = busOnNext b n l from rfl, busOnNext]
        simp [getD_addHandler_self]
      · simp only [applyRegs, List.foldl_cons, nextsOf, if_neg hn]
        have := ih (applyReg b (RegOp.onNextR n l))
        simp [applyRegs] at this
        rw [this]
        rw [show (applyReg b (RegOp.onNextR n l)) = busOnNext b n l from rfl, busOnNext]
        simp [aget_addHandler_ne (fun hh => hn hh.symm)]
    | onR n l =>
      simp only [applyRegs, List.foldl_cons, nextsOf]
      have := ih (applyReg b (RegOp.onR n l))
      simp [applyRegs] at this
      rw [this]
      rfl

/-- C2: for every sequence of `on`/`onNext` registrations followed by
`dispatch(eventName, payload)`, the dispatch invokes the persistent
listeners registered for that name in registration order, then the
one-shot listeners in registration order — all persistent listeners before
any one-shot listener regardless of interleaving — each with the payload,
and afterwards the one-shot registry for that name is empty (even when no
one-shot listener ran), with dispatch returning `true`. -/
theorem dispatch_order_and_oneshot_clearing (rs : List RegOp) (env : Env)
    (name : String) (p : Nat) :
    (dispatch env (applyRegs emptyBus rs) name p).2.1
      = ((onsOf name rs).map fun l => (l, p)) ++ ((nextsOf name rs).map fun l => (l, p)) ∧
    aget name (dispatch env (applyRegs emptyBus rs) name p).1.nextEventHandlers = none ∧
    (dispatch env (applyRegs emptyBus rs) name p).2.2 = true := by
  refine ⟨?_, dispatch_clears_next env _ name p, rfl⟩
  rw [dispatch_trace, applyRegs_ons name rs emptyBus, applyRegs_nexts name rs emptyBus]
  simp [emptyBus, aget]

/-! ## `waitForNext`: single resolution -/

theorem wrun_settled (steps : List WStep) :
    ∀ w : WaitWorld, w.registered = false → w.timerActive = false →
      wrun w steps = w := by
  induction steps with
  | nil => intro w _ _; rfl
  | cons s rest ih =>
    intro w h1 h2
    have hs : wstep w s = w := by
      cases s with
      | dispatchEv p =>
        simp only [wstep, h1, if_false, Bool.false_eq_true]
        cases w
        simp_all
      | timeoutEv =>
        simp only [wstep, h2, if_false, Bool.false_eq_true]
    rw [wrun, List.foldl_cons, hs]
    exact ih w h1 h2

/-- C5: a `waitForNext(eventName, timeoutMs)` call resolves exactly once —
with the dispatched payload when the dispatch reaches it before the timer
fires, and with `null` when the timer fires first — and on whichever path
resolves, the transient one-shot listener is deregistered: over every
nonempty sequence of occurrences, the resolve calls performed are exactly
one, determined by the first occurrence, and the listener ends (and stays)
deregistered. -/
theorem waitForNext_resolves_once (s : WStep) (rest : List WStep) :
    (wrun waitInit (s :: rest)).resolutions = [wOutcome s] ∧
    (wrun waitInit (s :: rest)).registered = false := by
  have hstep : wstep waitInit s
      = { registered := false, timerActive := false, resolutions := [wOutcome s] } := by
    cases s with
    | dispatchEv p => simp [wstep, waitInit, wOutcome]
    | timeoutEv => simp [wstep, waitInit, wOutcome]
  rw [wrun, List.foldl_cons, hstep]
  rw [show (List.foldl wstep
      { registered := false, timerActive := false, resolutions := [wOutcome s] } rest)
    = wrun { registered := false, timerActive := false, resolutions := [wOutcome s] } rest
    from rfl]
  rw [wrun_settled rest _ rfl rfl]
  exact ⟨rfl, rfl⟩

/-! ## Listener failure isolation (claim C6) -/

/-- C6 (amended): in the `src/lib/event_handler.js` dispatch, where each
listener invocation is wrapped in try/catch, a listener that raises does
not interrupt delivery: every snapshot listener — including every listener
after the raising one — is still invoked with the payload, and dispatch
completes returning `true`.  (The `src/unnamed/part_000` variant lacks the
try/catch; see the counterexample.) -/
theorem dispatch_isolates_listener_errors (env : Env) (b : Bus) (name : String)
    (p : Nat) (l : LId)
    (hmem : l ∈ (aget name b.eventHandlers).getD []
      ++ (aget name b.nextEventHandlers).getD [])
    (hraises : LAction.raise ∈ env l) :
    (dispatch env b name p).2.1
      = ((aget name b.eventHandlers).getD []
          ++ (aget name b.nextEventHandlers).getD []).map (fun l' => (l', p)) ∧
    (dispatch env b name p).2.2 = true :=
  ⟨dispatch_trace env b name p, rfl⟩

/-- A bus with two persistent listeners for `"x"`, of which the first
raises when invoked. -/
def abortEnv : Env := fun l => if l = 1 then [.raise] else []

/-- The bus after `on("x", cb1); on("x", cb2)`. -/
def abortBus : Bus := busOn (busOn emptyBus "x" 1) "x" 2

/-- C6 counterexample: in the `src/unnamed/part_000` dispatch (no
try/catch), when listener 1 raises, listener 2 — registered for the same
event — is never invoked and dispatch does not return success: the claim
as stated fails on this repository variant. -/
theorem dispatchU_abort_counterexample :
    2 ∈ (aget "x" abortBus.eventHandlers).getD [] ∧
    LAction.raise ∈ abortEnv 1 ∧
    (dispatchU abortEnv abortBus "x" 7).2.1 = [(1, 7)] ∧
    (dispatchU abortEnv abortBus "x" 7).2.2 = UOutcome.threw := by
  refine ⟨by decide, by decide, by decide, by decide⟩

/-- Witness for C6's amended theorem: the same two listeners under the
caught-errors dispatch — both are invoked and dispatch returns `true`. -/
theorem dispatch_isolates_listener_errors_witness :
    (1 ∈ (aget "x" abortBus.eventHandlers).getD []
      ++ (aget "x" abortBus.nextEventHandlers).getD []) ∧
    (LAction.raise ∈ abortEnv 1) ∧
    ((dispatch abortEnv abortBus "x" 7).2.1
      = ((aget "x" abortBus.eventHandlers).getD []
          ++ (aget "x" abortBus.nextEventHandlers).getD []).map (fun l' => (l', 7)) ∧
      (dispatch abortEnv abortBus "x" 7).2.2 = true) :=
  ⟨by decide, by decide,
    dispatch_isolates_listener_errors abortEnv abortBus "x" 7 1 (by decide) (by decide)⟩

/-! ## One-shot listeners registered during dispatch (claim C10) -/

/-- C10: a one-shot listener registered via `onNext(eventName, ...)` by a
listener running inside `dispatch(eventName, payload)` is never invoked:
it is not in the snapshot taken at the start of dispatch (so it is not in
this dispatch's trace), and the end-of-dispatch clearing of the one-shot
registry for that name deletes it, so no later dispatch can fire it from
that registration either. -/
theorem dispatch_skips_reentrant_oneshot (env : Env) (b : Bus) (name : String)
    (p : Nat) (w : LId)
    (h1 : w ∉ (aget name b.eventHandlers).getD [])
    (h2 : w ∉ (aget name b.nextEventHandlers).getD [])
    (h3 : ∃ l, l ∈ (aget name b.eventHandlers).getD []
        ++ (aget name b.nextEventHandlers).getD []
      ∧ LAction.onNextA name w ∈ env l) :
    (∀ q, (w, q) ∉ (dispatch env b name p).2.1) ∧
    aget name (dispatch env b name p).1.nextEventHandlers = none := by
  refine ⟨?_, dispatch_clears_next env b name p⟩
  intro q hq
  rw [dispatch_trace] at hq
  rcases List.mem_map.mp hq with ⟨l', hl', hEq⟩
  have : l' = w := congrArg Prod.fst hEq
  subst this
  rcases List.mem_append.mp hl' with h | h
  · exact h1 h
  · exact h2 h

/-- A persistent listener for `"x"` that registers one-shot listener 5 for
`"x"` while running. -/
def reentrantEnv : Env := fun l => if l = 1 then [.onNextA "x" 5] else []

/-- The bus after `on("x", cb1)`. -/
def reentrantBus : Bus := busOn emptyBus "x" 1

/-- Witness for C10 at a concrete input: listener 5, registered during the
dispatch by listener 1, is not invoked and is not left registered. -/
theorem dispatch_skips_reentrant_oneshot_witness :
    (∀ q, (5, q) ∉ (dispatch reentrantEnv reentrantBus "x" 7).2.1) ∧
    aget "x" (dispatch reentrantEnv reentrantBus "x" 7).1.nextEventHandlers = none :=
  dispatch_skips_reentrant_oneshot reentrantEnv reentrantBus "x" 7 5
    (by decide) (by decide) ⟨1, by decide, by decide⟩

/-! ## `processEvent` validation (claim C4) -/

/-- C4: `processEvent` fails with a `ProtocolViolation` condition when
`event.event_id` or `event.type` is missing (JS-falsy), and fails with an
`UnknownEventType` condition — never silently ignoring the event — when
`event.type` has no handler in the fixed dispatch table, leaving the
transcript state unchanged in each case. -/
theorem processEvent_rejects_malformed_and_unknown (c : Conv) (e : Event)
    (ctx : Option (List Sample)) :
    (isFalsy e.event_id = true →
      c.processEvent e ctx = (c, .err (.protocolViolation "event_id"))) ∧
    (isFalsy e.event_id = false → isFalsy e.type = true →
      c.processEvent e ctx = (c, .err (.protocolViolation "type"))) ∧
    (∀ t, isFalsy e.event_id = false → e.type = some t → isFalsy e.type = false →
      EventProcessors t = none →
      c.processEvent e ctx = (c, .err (.unknownEventType t))) := by
  refine ⟨?_, ?_, ?_⟩
  · intro h
    simp [Conv.processEvent, h]
  · intro h1 h2
    simp [Conv.processEvent, h1, h2]
  · intro t h1 h2 h3 h4
    rw [h2] at h3
    simp [Conv.processEvent, h1, h2, h3, h4]

/-- An event with a well-formed id but a type outside the dispatch table. -/
def unknownTypeEvent : Event := { event_id := some "evt_1", type := some "bogus.type" }

/-- Witness for C4: the unknown-type event is rejected with
`UnknownEventType` and the state is untouched. -/
theorem processEvent_rejects_witness :
    emptyConv.processEvent unknownTypeEvent none
      = (emptyConv, .err (.unknownEventType "bogus.type")) :=
  (processEvent_rejects_malformed_and_unknown emptyConv unknownTypeEvent none).2.2
    "bogus.type" (by decide) rfl (by decide) rfl

/-! ## Truncation (claim C8) -/

/-- C8: for an item present in the transcript whose formatted audio holds
`prev`, `conversation.item.truncated` clears `formatted.transcript` to the
empty string and truncates `formatted.audio` to the first
`floor(audio_end_ms * 24000 / 1000)` samples, never extending it: the
resulting length is `min` of the previous length and the computed index,
and the result is an unchanged prefix of the previous samples. -/
theorem truncated_clears_transcript_and_clamps_audio (c : Conv) (e : Event)
    (ctx : Option (List Sample)) (id : String) (item : Item)
    (prev : List Sample) (endMs : Nat)
    (hev : isFalsy e.event_id = false)
    (hty : e.type = some "conversation.item.truncated")
    (hiid : e.item_id = some id)
    (hms : e.audio_end_ms = some endMs)
    (hit : aget id c.itemLookup = some item)
    (haud : item.formatted.audio = some prev) :
    aget id (c.processEvent e ctx).1.itemLookup
      = some { item with formatted :=
          { item.formatted with
            transcript := "",
            audio := some (prev.take (msToSamples endMs)) } } ∧
    (prev.take (msToSamples endMs)).length = min prev.length (msToSamples endMs) ∧
    (∀ i, i < (prev.take (msToSamples endMs)).length →
      (prev.take (msToSamples endMs))[i]? = prev[i]?) := by
  refine ⟨?_, ?_, ?_⟩
  · have hty' : isFalsy e.type = false := by rw [hty]; decide
    simp only [Conv.processEvent, hev, hty', Bool.false_eq_true, if_false]
    simp [hty, EventProcessors, procItemTruncated, eStr, hiid, hms, hit, haud,
      aget_aset_self]
  · rw [List.length_take, Nat.min_comm]
  · intro i hi
    rw [List.length_take, lt_min_iff] at hi
    simp [List.getElem?_take, hi.1]

/-- A one-item state for the C8 witness: item `"a"` with four samples of
audio and a nonempty transcript. -/
def truncWitnessItem : Item :=
  { id := "a", type := "message", role := "assistant", status := "completed",
    content := none, name := "", call_id := "", output := "", arguments := "",
    formatted :=
      { audio := some [5, 6, 7, 8], text := "", transcript := "hey",
        tool := none, output := none } }

/-- The state holding `truncWitnessItem`. -/
def truncWitnessConv : Conv :=
  { emptyConv with itemLookup := [("a", truncWitnessItem)], items := ["a"] }

/-- `conversation.item.truncated` for the C8 witness: 0 ms keeps 0 samples. -/
def truncWitnessEvent : Event :=
  { event_id := some "evt_t", type := some "conversation.item.truncated",
    item_id := some "a", audio_end_ms := some 0 }

/-- Witness for C8 at a concrete input. -/
theorem truncated_clears_witness :
    aget "a" (truncWitnessConv.processEvent truncWitnessEvent none).1.itemLookup
      = some { truncWitnessItem with formatted :=
          { truncWitnessItem.formatted with
            transcript := "",
            audio := some (([5, 6, 7, 8] : List Sample).take (msToSamples 0)) } } ∧
    (([5, 6, 7, 8] : List Sample).take (msToSamples 0)).length
      = min ([5, 6, 7, 8] : List Sample).length (msToSamples 0) ∧
    (∀ i, i < (([5, 6, 7, 8] : List Sample).take (msToSamples 0)).length →
      (([5, 6, 7, 8] : List Sample).take (msToSamples 0))[i]?
        = ([5, 6, 7, 8] : List Sample)[i]?) :=
  truncated_clears_transcript_and_clamps_audio truncWitnessConv truncWitnessEvent
    none "a" truncWitnessItem [5, 6, 7, 8] 0
    (by decide) rfl rfl rfl (by decide) (by decide)

/-! ## Reducing `processEvent` to a table handler -/

theorem processEvent_handler (c : Conv) (e : Event) (ctx : Option (List Sample))
    (t : String) {hd : Handler}
    (h1 : isFalsy e.event_id = false) (h2 : e.type = some t) (h3 : t.isEmpty = false)
    (hh : EventProcessors t = some hd) :
    c.processEvent e ctx = hd c e ctx := by
  have h3' : isFalsy (some t) = false := h3
  simp [Conv.processEvent, h1, h2, h3', hh]

/-! ## Protocol event builders (the concrete inbound messages) -/

/-- `input_audio_buffer.speech_started { item_id, audio_start_ms }`. -/
def speechStartedEvent (id : String) (ms : Nat) : Event :=
  { event_id := some "evt_speech_started", type := some "input_audio_buffer.speech_started",
    item_id := some id, audio_start_ms := some ms }

/-- `input_audio_buffer.speech_stopped { item_id, audio_end_ms }`. -/
def speechStoppedEvent (id : String) (ms : Nat) : Event :=
  { event_id := some "evt_speech_stopped", type := some "input_audio_buffer.speech_stopped",
    item_id := some id, audio_end_ms := some ms }

/-- `conversation.item.created { item }`. -/
def itemCreatedEvent (ei : EventItem) : Event :=
  { event_id := some "evt_item_created", type := some "conversation.item.created",
    item := some ei }

/-- `conversation.item.truncated { item_id, audio_end_ms }`. -/
def truncatedEvent (id : String) (ms : Nat) : Event :=
  { event_id := some "evt_truncated", type := some "conversation.item.truncated",
    item_id := some id, audio_end_ms := some ms }

/-- `conversation.item.deleted { item_id }`. -/
def deletedEvent (id : String) : Event :=
  { event_id := some "evt_deleted", type := some "conversation.item.deleted",
    item_id := some id }

/-- `conversation.item.input_audio_transcription.completed
{ item_id, content_index, transcript }`. -/
def transcriptionCompletedEvent (id : String) (i : Nat) (t : String) : Event :=
  { event_id := some "evt_transcription",
    type := some "conversation.item.input_audio_transcription.completed",
    item_id := some id, content_index := some i, transcript := some t }

/-! ## Speech-boundary audio adoption (claim C7) -/

/-- The `formatted.audio` of the item a `processEvent` call returned. -/
def resultAudio : PResult → Option (List Sample)
  | .ok r => r.item.bind fun it => it.formatted.audio
  | .err _ => none

theorem procItemCreated_adopts_speech_audio (c : Conv) (e : Event) (ei : EventItem)
    (rec : SpeechRec)
    (hi : e.item = some ei)
    (hsp : aget ei.id c.queuedSpeechItems = some rec)
    (hqi : c.queuedInputAudio = none) :
    resultAudio (procItemCreated c e).2 = rec.audio ∧
    aget ei.id (procItemCreated c e).1.queuedSpeechItems = none := by
  cases hc : ei.content <;> cases htr : aget ei.id c.queuedTranscriptItems <;>
    simp only [procItemCreated, hi, hsp, hqi, hc, htr, resultAudio] <;>
    split_ifs <;>
    simp [aget_aerase_self, initFormatted, Option.bind]

/-- C7: from any state with no pending locally captured input audio,
processing `speech_started { item_id, audio_start_ms }`, then
`speech_stopped { item_id, audio_end_ms }` with a captured buffer supplied
as context, then `conversation.item.created` for that item id, yields an
item whose `formatted.audio` is exactly the captured buffer's samples from
index `floor(audio_start_ms*24000/1000)` (inclusive) to
`floor(audio_end_ms*24000/1000)` (exclusive), and deletes the queued
speech record for that id. -/
theorem speechStarted_state (c : Conv) (id : String) (ms : Nat) :
    (c.processEvent (speechStartedEvent id ms) none).1
      = { c with
          queuedSpeechItems := aset id
            { audio_start_ms := ms, audio_end_ms := none, audio := none }
            c.queuedSpeechItems } := by
  rw [processEvent_handler c (speechStartedEvent id ms) none
    "input_audio_buffer.speech_started" rfl rfl rfl rfl]
  simp [procSpeechStarted, speechStartedEvent, eStr]

theorem speechStopped_state (c : Conv) (id : String) (startMs endMs : Nat)
    (buf : List Sample)
    (hget : aget id c.queuedSpeechItems
      = some { audio_start_ms := startMs, audio_end_ms := none, audio := none }) :
    (c.processEvent (speechStoppedEvent id endMs) (some buf)).1
      = { c with
          queuedSpeechItems := aset id
            { audio_start_ms := startMs, audio_end_ms := some endMs,
              audio := some (jsSlice buf (msToSamples startMs) (msToSamples endMs)) }
            c.queuedSpeechItems } := by
  rw [processEvent_handler c (speechStoppedEvent id endMs) (some buf)
    "input_audio_buffer.speech_stopped" rfl rfl rfl rfl]
  simp [procSpeechStopped, speechStoppedEvent, eStr, hget]

theorem speech_boundaries_slice_captured_audio (c : Conv) (buf : List Sample)
    (id : String) (startMs endMs : Nat) (ei : EventItem)
    (hid : ei.id = id) (hqi : c.queuedInputAudio = none) :
    let c2 := ((c.processEvent (speechStartedEvent id startMs) none).1.processEvent
        (speechStoppedEvent id endMs) (some buf)).1
    resultAudio (c2.processEvent (itemCreatedEvent ei) none).2
      = some ((buf.drop (msToSamples startMs)).take
          (msToSamples endMs - msToSamples startMs)) ∧
    aget id (c2.processEvent (itemCreatedEvent ei) none).1.queuedSpeechItems = none := by
  intro c2
  have hstep : c2 = { c with
      queuedSpeechItems := aset id
        { audio_start_ms := startMs, audio_end_ms := some endMs,
          audio := some (jsSlice buf (msToSamples startMs) (msToSamples endMs)) }
        (aset id { audio_start_ms := startMs, audio_end_ms := none, audio := none }
          c.queuedSpeechItems) } := by
    show ((c.processEvent (speechStartedEvent id startMs) none).1.processEvent
        (speechStoppedEvent id endMs) (some buf)).1 = _
    rw [speechStarted_state c id startMs]
    exact speechStopped_state
      { c with
        queuedSpeechItems := aset id
          { audio_start_ms := startMs, audio_end_ms := none, audio := none }
          c.queuedSpeechItems }
      id startMs endMs buf (aget_aset_self id _ c.queuedSpeechItems)
  have hsp : aget ei.id c2.queuedSpeechItems
      = some
          { audio_start_ms := startMs, audio_end_ms := some endMs,
            audio := some (jsSlice buf (msToSamples startMs) (msToSamples endMs)) } := by
    rw [hstep, hid]
    exact aget_aset_self id _ _
  have hqi2 : c2.queuedInputAudio = none := by rw [hstep]; exact hqi
  have hE : (c2.processEvent (itemCreatedEvent ei) none)
      = procItemCreated c2 (itemCreatedEvent ei) :=
    processEvent_handler c2 (itemCreatedEvent ei) none "conversation.item.created"
      rfl rfl rfl rfl
  have hmain := procItemCreated_adopts_speech_audio c2 (itemCreatedEvent ei) ei _
    rfl hsp hqi2
  rw [hE]
  refine ⟨?_, hid ▸ hmain.2⟩
  rw [hmain.1]
  simp only [jsSlice]
  rw [List.drop_take]

/-- The created user message for the C7 witness. -/
def sliceWitnessItem : EventItem := { id := "a", type := "message", role := "user" }

/-- Witness for C7 at a concrete input: a six-sample captured buffer and
zero-millisecond boundaries. -/
theorem speech_boundaries_slice_witness :
    (let c2 := ((emptyConv.processEvent (speechStartedEvent "a" 0) none).1.processEvent
        (speechStoppedEvent "a" 0) (some [3, 1, 4, 1, 5, 9])).1
    resultAudio (c2.processEvent (itemCreatedEvent sliceWitnessItem) none).2
      = some ((([3, 1, 4, 1, 5, 9] : List Sample).drop (msToSamples 0)).take
          (msToSamples 0 - msToSamples 0)) ∧
    aget "a" (c2.processEvent (itemCreatedEvent sliceWitnessItem)
      none).1.queuedSpeechItems = none) :=
  speech_boundaries_slice_captured_audio emptyConv [3, 1, 4, 1, 5, 9] "a" 0 0
    sliceWitnessItem rfl rfl

/-! ## Atomicity of failing events (claim C1) -/

/-- The error kinds named by the spec's §7 taxonomy — `ProtocolViolation`,
`UnknownEventType`, `ReferenceNotFound`, `EncodingError` — as opposed to a
JS `TypeError` escaping a handler. -/
def ConvError.isNamedCondition : ConvError → Bool
  | .typeError _ => false
  | _ => true

theorem procItemCreated_err_state (c : Conv) (e : Event) (err : ConvError)
    (h : (procItemCreated c e).2 = .err err) : (procItemCreated c e).1 = c := by
  cases hi : e.item with
  | none => simp [procItemCreated, hi]
  | some ei => simp [procItemCreated, hi] at h

theorem procItemTruncated_err_state (c : Conv) (e : Event) (err : ConvError)
    (h : (procItemTruncated c e).2 = .err err)
    (hn : err.isNamedCondition = true) : (procItemTruncated c e).1 = c := by
  cases hg : aget (eStr e.item_id) c.itemLookup with
  | none => simp [procItemTruncated, hg]
  | some item =>
    cases ha : item.formatted.audio with
    | none =>
      simp only [procItemTruncated, hg, ha] at h
      cases h
      simp [ConvError.isNamedCondition] at hn
    | some a => simp [procItemTruncated, hg, ha] at h

theorem procItemDeleted_err_state (c : Conv) (e : Event) (err : ConvError)
    (h : (procItemDeleted c e).2 = .err err) : (procItemDeleted c e).1 = c := by
  cases hg : aget (eStr e.item_id) c.itemLookup with
  | none => simp [procItemDeleted, hg]
  | some item => simp [procItemDeleted, hg] at h

theorem procTranscriptionCompleted_err_state (c : Conv) (e : Event) (err : ConvError)
    (h : (procTranscriptionCompleted c e).2 = .err err) :
    (procTranscriptionCompleted c e).1 = c := by
  cases hg : aget (eStr e.item_id) c.itemLookup with
  | none => simp [procTranscriptionCompleted, hg] at h
  | some item =>
    cases hs : setPart item.content (e.content_index.getD 0)
        (fun p => { p with transcript := e.transcript.getD "" }) with
    | none => simp [procTranscriptionCompleted, hg, hs]
    | some content' => simp [procTranscriptionCompleted, hg, hs] at h

theorem procSpeechStarted_err_state (c : Conv) (e : Event) (err : ConvError)
    (h : (procSpeechStarted c e).2 = .err err) : (procSpeechStarted c e).1 = c := by
  simp [procSpeechStarted] at h

theorem procSpeechStopped_err_state (c : Conv) (e : Event)
    (ctx : Option (List Sample)) (err : ConvError)
    (h : (procSpeechStopped c e ctx).2 = .err err) : (procSpeechStopped c e ctx).1 = c := by
  simp [procSpeechStopped] at h

theorem procResponseCreated_err_state (c : Conv) (e : Event) (err : ConvError)
    (h : (procResponseCreated c e).2 = .err err) : (procResponseCreated c e).1 = c := by
  cases hr : e.response with
  | none => simp [procResponseCreated, hr]
  | some r =>
    by_cases hp : (aget r.id c.responseLookup).isSome <;>
      simp [procResponseCreated, hr, hp] at h

theorem procOutputItemAdded_err_state (c : Conv) (e : Event) (err : ConvError)
    (h : (procOutputItemAdded c e).2 = .err err) : (procOutputItemAdded c e).1 = c := by
  cases hg : aget (eStr e.response_id) c.responseLookup with
  | none => simp [procOutputItemAdded, hg]
  | some r =>
    cases hi : e.item with
    | none => simp [procOutputItemAdded, hg, hi]
    | some ei => simp [procOutputItemAdded, hg, hi] at h

theorem procOutputItemDone_err_state (c : Conv) (e : Event) (err : ConvError)
    (h : (procOutputItemDone c e).2 = .err err) : (procOutputItemDone c e).1 = c := by
  cases hi : e.item with
  | none => simp [procOutputItemDone, hi]
  | some ei =>
    cases hg : aget ei.id c.itemLookup with
    | none => simp [procOutputItemDone, hi, hg]
    | some item => simp [procOutputItemDone, hi, hg] at h

theorem procContentPartAdded_err_state (c : Conv) (e : Event) (err : ConvError)
    (h : (procContentPartAdded c e).2 = .err err) : (procContentPartAdded c e).1 = c := by
  cases hg : aget (eStr e.item_id) c.itemLookup with
  | none => simp [procContentPartAdded, hg]
  | some item =>
    cases hc : item.content with
    | none => simp [procContentPartAdded, hg, hc]
    | some parts => simp [procContentPartAdded, hg, hc] at h

theorem procAudioTranscriptDelta_err_state (c : Conv) (e : Event) (err : ConvError)
    (h : (procAudioTranscriptDelta c e).2 = .err err) :
    (procAudioTranscriptDelta c e).1 = c := by
  cases hg : aget (eStr e.item_id) c.itemLookup with
  | none => simp [procAudioTranscriptDelta, hg]
  | some item =>
    cases hs : setPart item.content (e.content_index.getD 0)
        (fun p => { p with transcript := p.transcript ++ e.delta.getD "" }) with
    | none => simp [procAudioTranscriptDelta, hg, hs]
    | some content' => simp [procAudioTranscriptDelta, hg, hs] at h

theorem procAudioDelta_err_state (c : Conv) (e : Event) (err : ConvError)
    (h : (procAudioDelta c e).2 = .err err) : (procAudioDelta c e).1 = c := by
  cases hg : aget (eStr e.item_id) c.itemLookup with
  | none => simp [procAudioDelta, hg]
  | some item =>
    cases hb : base64ToInt16 (e.delta.getD "") with
    | none => simp [procAudioDelta, hg, hb]
    | some vals =>
      cases ha : item.formatted.audio with
      | none => simp [procAudioDelta, hg, hb, ha]
      | some a => simp [procAudioDelta, hg, hb, ha] at h

theorem procTextDelta_err_state (c : Conv) (e : Event) (err : ConvError)
    (h : (procTextDelta c e).2 = .err err) : (procTextDelta c e).1 = c := by
  cases hg : aget (eStr e.item_id) c.itemLookup with
  | none => simp [procTextDelta, hg]
  | some item =>
    cases hs : setPart item.content (e.content_index.getD 0)
        (fun p => { p with text := p.text ++ e.delta.getD "" }) with
    | none => simp [procTextDelta, hg, hs]
    | some content' => simp [procTextDelta, hg, hs] at h

theorem procFnArgsDelta_err_state (c : Conv) (e : Event) (err : ConvError)
    (h : (procFnArgsDelta c e).2 = .err err) : (procFnArgsDelta c e).1 = c := by
  cases hg : aget (eStr e.item_id) c.itemLookup with
  | none => simp [procFnArgsDelta, hg]
  | some item => simp [procFnArgsDelta, hg] at h

set_option maxHeartbeats 1600000 in
theorem eventProcessors_enum (t : String) (hd : Handler)
    (hh : EventProcessors t = some hd) :
    hd = (fun c e _ => procItemCreated c e) ∨
    hd = (fun c e _ => procItemTruncated c e) ∨
    hd = (fun c e _ => procItemDeleted c e) ∨
    hd = (fun c e _ => procTranscriptionCompleted c e) ∨
    hd = (fun c e _ => procSpeechStarted c e) ∨
    hd = (fun c e ctx => procSpeechStopped c e ctx) ∨
    hd = (fun c e _ => procResponseCreated c e) ∨
    hd = (fun c e _ => procOutputItemAdded c e) ∨
    hd = (fun c e _ => procOutputItemDone c e) ∨
    hd = (fun c e _ => procContentPartAdded c e) ∨
    hd = (fun c e _ => procAudioTranscriptDelta c e) ∨
    hd = (fun c e _ => procAudioDelta c e) ∨
    hd = (fun c e _ => procTextDelta c e) ∨
    hd = (fun c e _ => procFnArgsDelta c e) := by
  unfold EventProcessors at hh
  split at hh <;>
    first
      | (injection hh with hh; subst hh; tauto)
      | exact absurd hh (by simp)

/-- C1 (amended): whenever `processEvent` fails with one of the spec §7
named conditions — `ProtocolViolation` (missing `event_id`/`type` or a
missing required payload object), `UnknownEventType`, `ReferenceNotFound`,
or `EncodingError` (a decoding failure inside a handler) — the engine
state is unchanged: every such error is raised before any mutation.  (The
unnamed type-error path of `conversation.item.truncated` is the one
exception; see the counterexample.) -/
theorem processEvent_atomic_on_named_conditions (c : Conv) (e : Event)
    (ctx : Option (List Sample)) (err : ConvError)
    (h : (c.processEvent e ctx).2 = .err err)
    (hn : err.isNamedCondition = true) :
    (c.processEvent e ctx).1 = c := by
  cases hev : isFalsy e.event_id with
  | true => simp [Conv.processEvent, hev]
  | false =>
    cases hty : isFalsy e.type with
    | true => simp [Conv.processEvent, hev, hty]
    | false =>
      cases hEP : EventProcessors (e.type.getD "") with
      | none => simp [Conv.processEvent, hev, hty, hEP]
      | some hd =>
        have hred : c.processEvent e ctx = hd c e ctx := by
          simp [Conv.processEvent, hev, hty, hEP]
        rw [hred] at h ⊢
        rcases eventProcessors_enum _ hd hEP with
          rfl | rfl | rfl | rfl | rfl | rfl | rfl | rfl | rfl | rfl | rfl | rfl | rfl | rfl
        · exact procItemCreated_err_state c e err h
        · exact procItemTruncated_err_state c e err h hn
        · exact procItemDeleted_err_state c e err h
        · exact procTranscriptionCompleted_err_state c e err h
        · exact procSpeechStarted_err_state c e err h
        · exact procSpeechStopped_err_state c e ctx err h
        · exact procResponseCreated_err_state c e err h
        · exact procOutputItemAdded_err_state c e err h
        · exact procOutputItemDone_err_state c e err h
        · exact procContentPartAdded_err_state c e err h
        · exact procAudioTranscriptDelta_err_state c e err h
        · exact procAudioDelta_err_state c e err h
        · exact procTextDelta_err_state c e err h
        · exact procFnArgsDelta_err_state c e err h

/-- Witness for C1's amended theorem: a truncate of an absent item raises
`ReferenceNotFound` and leaves the state untouched. -/
theorem processEvent_atomic_witness :
    (emptyConv.processEvent (truncatedEvent "missing" 100) none).2
      = .err (.referenceNotFound "item.truncated" "missing") ∧
    (emptyConv.processEvent (truncatedEvent "missing" 100) none).1 = emptyConv :=
  ⟨by decide,
    processEvent_atomic_on_named_conditions emptyConv (truncatedEvent "missing" 100)
      none (.referenceNotFound "item.truncated" "missing") (by decide) (by decide)⟩

/-- The assistant message whose id matches an open speech record. -/
def atomicityItem : EventItem :=
  { id := "a", type := "message", role := "assistant",
    content := some [{ type := "audio" }] }

/-- A reachable state in which item `"a"` has `formatted.audio` adopted
from a speech record that never received sliced audio (so it is the JS
`undefined`) and a nonempty `formatted.transcript`. -/
def atomicityState : Conv :=
  runOps emptyConv
    [.procEvent (speechStartedEvent "a" 0) none,
     .procEvent (itemCreatedEvent atomicityItem) none,
     .procEvent (transcriptionCompletedEvent "a" 0 "hello") none]

/-- C1 counterexample: on `atomicityState`, `conversation.item.truncated`
raises (slicing the `undefined` audio throws a `TypeError`) *after*
clearing `formatted.transcript`, so `processEvent` raises an error yet the
state after the call differs from the state before — the handler partially
mutated the item store and then failed. -/
theorem processEvent_atomicity_counterexample :
    (atomicityState.processEvent (truncatedEvent "a" 500) none).2
      = .err (.typeError "item.truncated: formatted.audio slice") ∧
    (atomicityState.processEvent (truncatedEvent "a" 500) none).1 ≠ atomicityState := by
  exact ⟨by decide, by decide⟩

/-! ## The `items` / `itemLookup` consistency invariant (claim C3) -/

theorem mem_aerase {α : Type} {k : String} {m : List (String × α)} {p : String × α}
    (h : p ∈ aerase k m) : p ∈ m := by
  induction m with
  | nil => simpa [aerase] using h
  | cons q rest ih =>
    by_cases hq : q.1 = k
    · simp only [aerase, if_pos hq] at h
      exact List.mem_cons_of_mem _ (ih h)
    · simp only [aerase, if_neg hq, List.mem_cons] at h
      rcases h with h | h
      · exact h ▸ List.mem_cons_self q rest
      · exact List.mem_cons_of_mem _ (ih h)

/-- The invariant tying the ordered id sequence to the item store: `items`
is exactly the key sequence of `itemLookup` (same members, same order, no
duplicates), and every stored item carries its own key as its `id`. -/
def Inv (c : Conv) : Prop :=
  c.items = c.itemLookup.map Prod.fst ∧ c.items.Nodup ∧
  ∀ p ∈ c.itemLookup, p.2.id = p.1

theorem inv_aset {c : Conv} (h : Inv c) {id : String} {item item' : Item}
    (hget : aget id c.itemLookup = some item) (hid : item'.id = id) :
    Inv { c with itemLookup := aset id item' c.itemLookup } := by
  obtain ⟨h1, h2, h3⟩ := h
  refine ⟨?_, h2, ?_⟩
  · show c.items = (aset id item' c.itemLookup).map Prod.fst
    rw [map_fst_aset_of_aget_some hget]
    exact h1
  · intro p hp
    rcases mem_aset hp with rfl | hp'
    · exact hid
    · exact h3 p hp'

theorem procItemCreated_state_components (c : Conv) (e : Event) (ei : EventItem)
    (hi : e.item = some ei) :
    ∃ newItem : Item, newItem.id = ei.id ∧
      (procItemCreated c e).1.itemLookup
        = (if (aget ei.id c.itemLookup).isSome = true then c.itemLookup
           else aset ei.id newItem c.itemLookup) ∧
      (procItemCreated c e).1.items
        = (if (aget ei.id c.itemLookup).isSome = true then c.items
           else c.items ++ [ei.id]) := by
  cases e with
  | mk eid ety eitem eiid esm eem eci etr edl ept ers erid =>
    cases hi
    exact ⟨_, rfl, rfl, rfl⟩

theorem inv_procItemCreated (c : Conv) (e : Event) (h : Inv c) :
    Inv (procItemCreated c e).1 := by
  obtain ⟨h1, h2, h3⟩ := h
  cases hi : e.item with
  | none => simp only [procItemCreated, hi]; exact ⟨h1, h2, h3⟩
  | some ei =>
    obtain ⟨newItem, hnid, hlook, hitems⟩ := procItemCreated_state_components c e ei hi
    cases hb : (aget ei.id c.itemLookup).isSome with
    | true =>
      rw [hb, if_pos rfl] at hlook hitems
      rw [Inv, hlook, hitems]
      exact ⟨h1, h2, h3⟩
    | false =>
      have hget : aget ei.id c.itemLookup = none := by
        cases hh : aget ei.id c.itemLookup
        · rfl
        · rw [hh] at hb; simp at hb
      have hmem : ei.id ∉ c.items := h1 ▸ (aget_eq_none_iff _ _).mp hget
      rw [hb] at hlook hitems
      simp only [Bool.false_eq_true, if_false] at hlook hitems
      rw [Inv, hlook, hitems, aset_of_aget_none _ hget]
      refine ⟨?_, ?_, ?_⟩
      · rw [List.map_append, ← h1]
        rfl
      · simp [List.nodup_append, h2, hmem]
      · intro p hp'
        rcases List.mem_append.mp hp' with hin | hin
        · exact h3 p hin
        · rw [List.mem_singleton.mp hin]
          exact hnid

theorem inv_procItemTruncated (c : Conv) (e : Event) (h : Inv c) :
    Inv (procItemTruncated c e).1 := by
  cases hg : aget (eStr e.item_id) c.itemLookup with
  | none => simp only [procItemTruncated, hg]; exact h
  | some item =>
    have hid : item.id = eStr e.item_id := h.2.2 _ (mem_of_aget_some hg)
    cases ha : item.formatted.audio with
    | none =>
      simp only [procItemTruncated, hg, ha]
      exact inv_aset h hg hid
    | some a =>
      simp only [procItemTruncated, hg, ha]
      exact inv_aset h hg hid

theorem inv_procItemDeleted (c : Conv) (e : Event) (h : Inv c) :
    Inv (procItemDeleted c e).1 := by
  obtain ⟨h1, h2, h3⟩ := h
  cases hg : aget (eStr e.item_id) c.itemLookup with
  | none => simp only [procItemDeleted, hg]; exact ⟨h1, h2, h3⟩
  | some item =>
    have hnd : (c.itemLookup.map Prod.fst).Nodup := h1 ▸ h2
    simp only [procItemDeleted, hg]
    refine ⟨?_, h2.erase _, ?_⟩
    · show c.items.erase item.id = (aerase item.id c.itemLookup).map Prod.fst
      rw [map_fst_aerase _ _ hnd, ← h1]
    · intro p hp
      exact h3 p (mem_aerase hp)

theorem inv_procTranscriptionCompleted (c : Conv) (e : Event) (h : Inv c) :
    Inv (procTranscriptionCompleted c e).1 := by
  cases hg : aget (eStr e.item_id) c.itemLookup with
  | none =>
    simp only [procTranscriptionCompleted, hg]
    exact ⟨h.1, h.2.1, h.2.2⟩
  | some item =>
    have hid : item.id = eStr e.item_id := h.2.2 _ (mem_of_aget_some hg)
    cases hs : setPart item.content (e.content_index.getD 0)
        (fun p => { p with transcript := e.transcript.getD "" }) with
    | none => simp only [procTranscriptionCompleted, hg, hs]; exact h
    | some content' =>
      simp only [procTranscriptionCompleted, hg, hs]
      exact inv_aset h hg hid

theorem inv_procSpeechStarted (c : Conv) (e : Event) (h : Inv c) :
    Inv (procSpeechStarted c e).1 := by
  simp only [procSpeechStarted]
  exact ⟨h.1, h.2.1, h.2.2⟩

theorem inv_procSpeechStopped (c : Conv) (e : Event) (ctx : Option (List Sample))
    (h : Inv c) : Inv (procSpeechStopped c e ctx).1 := by
  simp only [procSpeechStopped]
  exact ⟨h.1, h.2.1, h.2.2⟩

theorem inv_procResponseCreated (c : Conv) (e : Event) (h : Inv c) :
    Inv (procResponseCreated c e).1 := by
  cases hr : e.response with
  | none => simp only [procResponseCreated, hr]; exact h
  | some r =>
    by_cases hp : (aget r.id c.responseLookup).isSome = true <;>
      simp only [procResponseCreated, hr, hp, if_true, if_false] <;>
      exact ⟨h.1, h.2.1, h.2.2⟩

theorem inv_procOutputItemAdded (c : Conv) (e : Event) (h : Inv c) :
    Inv (procOutputItemAdded c e).1 := by
  cases hg : aget (eStr e.response_id) c.responseLookup with
  | none => simp only [procOutputItemAdded, hg]; exact h
  | some r =>
    cases hi : e.item with
    | none => simp only [procOutputItemAdded, hg, hi]; exact h
    | some ei =>
      simp only [procOutputItemAdded, hg, hi]
      exact ⟨h.1, h.2.1, h.2.2⟩

theorem inv_procOutputItemDone (c : Conv) (e : Event) (h : Inv c) :
    Inv (procOutputItemDone c e).1 := by
  cases hi : e.item with
  | none => simp only [procOutputItemDone, hi]; exact h
  | some ei =>
    cases hg : aget ei.id c.itemLookup with
    | none => simp only [procOutputItemDone, hi, hg]; exact h
    | some item =>
      have hid : item.id = ei.id := h.2.2 _ (mem_of_aget_some hg)
      simp only [procOutputItemDone, hi, hg]
      exact inv_aset h hg hid

theorem inv_procContentPartAdded (c : Conv) (e : Event) (h : Inv c) :
    Inv (procContentPartAdded c e).1 := by
  cases hg : aget (eStr e.item_id) c.itemLookup with
  | none => simp only [procContentPartAdded, hg]; exact h
  | some item =>
    have hid : item.id = eStr e.item_id := h.2.2 _ (mem_of_aget_some hg)
    cases hc : item.content with
    | none => simp only [procContentPartAdded, hg, hc]; exact h
    | some parts =>
      simp only [procContentPartAdded, hg, hc]
      exact inv_aset h hg hid

theorem inv_procAudioTranscriptDelta (c : Conv) (e : Event) (h : Inv c) :
    Inv (procAudioTranscriptDelta c e).1 := by
  cases hg : aget (eStr e.item_id) c.itemLookup with
  | none => simp only [procAudioTranscriptDelta, hg]; exact h
  | some item =>
    have hid : item.id = eStr e.item_id := h.2.2 _ (mem_of_aget_some hg)
    cases hs : setPart item.content (e.content_index.getD 0)
        (fun p => { p with transcript := p.transcript ++ e.delta.getD "" }) with
    | none => simp only [procAudioTranscriptDelta, hg, hs]; exact h
    | some content' =>
      simp only [procAudioTranscriptDelta, hg, hs]
      exact inv_aset h hg hid

theorem inv_procAudioDelta (c : Conv) (e : Event) (h : Inv c) :
    Inv (procAudioDelta c e).1 := by
  cases hg : aget (eStr e.item_id) c.itemLookup with
  | none => simp only [procAudioDelta, hg]; exact h
  | some item =>
    have hid : item.id = eStr e.item_id := h.2.2 _ (mem_of_aget_some hg)
    cases hb : base64ToInt16 (e.delta.getD "") with
    | none => simp only [procAudioDelta, hg, hb]; exact h
    | some vals =>
      cases ha : item.formatted.audio with
      | none => simp only [procAudioDelta, hg, hb, ha]; exact h
      | some a =>
        simp only [procAudioDelta, hg, hb, ha]
        exact inv_aset h hg hid

theorem inv_procTextDelta (c : Conv) (e : Event) (h : Inv c) :
    Inv (procTextDelta c e).1 := by
  cases hg : aget (eStr e.item_id) c.itemLookup with
  | none => simp only [procTextDelta, hg]; exact h
  | some item =>
    have hid : item.id = eStr e.item_id := h.2.2 _ (mem_of_aget_some hg)
    cases hs : setPart item.content (e.content_index.getD 0)
        (fun p => { p with text := p.text ++ e.delta.getD "" }) with
    | none => simp only [procTextDelta, hg, hs]; exact h
    | some content' =>
      simp only [procTextDelta, hg, hs]
      exact inv_aset h hg hid

theorem inv_procFnArgsDelta (c : Conv) (e : Event) (h : Inv c) :
    Inv (procFnArgsDelta c e).1 := by
  cases hg : aget (eStr e.item_id) c.itemLookup with
  | none => simp only [procFnArgsDelta, hg]; exact h
  | some item =>
    have hid : item.id = eStr e.item_id := h.2.2 _ (mem_of_aget_some hg)
    simp only [procFnArgsDelta, hg]
    cases hm : item.formatted.tool with
    | none =>
      simp only [hm]
      exact inv_aset h hg hid
    | some tool =>
      simp only [hm]
      exact inv_aset h hg hid

theorem inv_processEvent (c : Conv) (e : Event) (ctx : Option (List Sample))
    (h : Inv c) : Inv (c.processEvent e ctx).1 := by
  cases hev : isFalsy e.event_id with
  | true => simp only [Conv.processEvent, hev]; exact h
  | false =>
    cases hty : isFalsy e.type with
    | true => simp only [Conv.processEvent, hev, hty]; exact h
    | false =>
      cases hEP : EventProcessors (e.type.getD "") with
      | none => simp [Conv.processEvent, hev, hty, hEP]; exact h
      | some hd =>
        have hred : c.processEvent e ctx = hd c e ctx := by
          simp [Conv.processEvent, hev, hty, hEP]
        rw [hred]
        rcases eventProcessors_enum _ hd hEP with
          rfl | rfl | rfl | rfl | rfl | rfl | rfl | rfl | rfl | rfl | rfl | rfl | rfl | rfl
        · exact inv_procItemCreated c e h
        · exact inv_procItemTruncated c e h
        · exact inv_procItemDeleted c e h
        · exact inv_procTranscriptionCompleted c e h
        · exact inv_procSpeechStarted c e h
        · exact inv_procSpeechStopped c e ctx h
        · exact inv_procResponseCreated c e h
        · exact inv_procOutputItemAdded c e h
        · exact inv_procOutputItemDone c e h
        · exact inv_procContentPartAdded c e h
        · exact inv_procAudioTranscriptDelta c e h
        · exact inv_procAudioDelta c e h
        · exact inv_procTextDelta c e h
        · exact inv_procFnArgsDelta c e h

theorem inv_emptyConv : Inv emptyConv :=
  ⟨rfl, List.nodup_nil, by intro p hp; simp [emptyConv] at hp⟩

theorem inv_runOps (ops : List ConvOp) : ∀ c : Conv, Inv c → Inv (runOps c ops) := by
  induction ops with
  | nil => intro c h; exact h
  | cons op rest ih =>
    intro c h
    rw [runOps, List.foldl_cons]
    apply ih
    cases op with
    | procEvent e ctx => exact inv_processEvent c e ctx h
    | queueIA buf => exact ⟨h.1, h.2.1, h.2.2⟩
    | clearOp => exact inv_emptyConv

/-- C3: in every state reachable from a fresh engine by `processEvent`,
`queueInputAudio` and `clear` calls, `items` and `itemLookup` hold exactly
the same items — `items` is the key sequence of `itemLookup`, without
duplicates, and an id is in `items` exactly when `itemLookup` has an entry
for it; moreover `conversation.item.deleted` removes a present item from
both structures, and a second delete of the same id raises
`ReferenceNotFound` and changes nothing. -/
theorem items_and_lookup_stay_consistent (ops : List ConvOp) :
    let c := runOps emptyConv ops
    (c.items = c.itemLookup.map Prod.fst ∧ c.items.Nodup ∧
      ∀ id, id ∈ c.items ↔ (aget id c.itemLookup).isSome = true) ∧
    ∀ id ctx, (aget id c.itemLookup).isSome = true →
      aget id (c.processEvent (deletedEvent id) ctx).1.itemLookup = none ∧
      id ∉ (c.processEvent (deletedEvent id) ctx).1.items ∧
      ((c.processEvent (deletedEvent id) ctx).1.processEvent (deletedEvent id) ctx).2
        = .err (.referenceNotFound "item.deleted" id) ∧
      ((c.processEvent (deletedEvent id) ctx).1.processEvent (deletedEvent id) ctx).1
        = (c.processEvent (deletedEvent id) ctx).1 := by
  intro c
  obtain ⟨h1, h2, h3⟩ := inv_runOps ops emptyConv inv_emptyConv
  constructor
  · refine ⟨h1, h2, fun id => ?_⟩
    rw [h1]
    constructor
    · intro hmem
      cases hh : aget id c.itemLookup
      · exact absurd hmem ((aget_eq_none_iff _ _).mp hh)
      · rfl
    · intro hs
      by_contra hmem
      rw [(aget_eq_none_iff _ _).mpr hmem] at hs
      simp at hs
  · intro id ctx hs
    obtain ⟨item, hget⟩ : ∃ it, aget id c.itemLookup = some it := by
      cases hh : aget id c.itemLookup
      · rw [hh] at hs; simp at hs
      · exact ⟨_, rfl⟩
    have hid : item.id = id := h3 _ (mem_of_aget_some hget)
    have hred : c.processEvent (deletedEvent id) ctx = procItemDeleted c (deletedEvent id) :=
      processEvent_handler c (deletedEvent id) ctx "conversation.item.deleted"
        rfl rfl rfl rfl
    have hkey : eStr (deletedEvent id).item_id = id := rfl
    have hstate : (c.processEvent (deletedEvent id) ctx).1
        = { c with
            itemLookup := aerase id c.itemLookup,
            items := c.items.erase id } := by
      rw [hred]
      simp only [procItemDeleted, hkey, hget, hid]
    have hnone : aget id (c.processEvent (deletedEvent id) ctx).1.itemLookup = none := by
      rw [hstate]
      exact aget_aerase_self id c.itemLookup
    have hred2 : (c.processEvent (deletedEvent id) ctx).1.processEvent
          (deletedEvent id) ctx
        = procItemDeleted (c.processEvent (deletedEvent id) ctx).1 (deletedEvent id) :=
      processEvent_handler _ (deletedEvent id) ctx "conversation.item.deleted"
        rfl rfl rfl rfl
    refine ⟨hnone, ?_, ?_, ?_⟩
    · rw [hstate]
      intro hmem
      exact ((List.Nodup.mem_erase_iff h2).mp hmem).1 rfl
    · rw [hred2]
      simp only [procItemDeleted, hkey, hnone]
    · rw [hred2]
      simp only [procItemDeleted, hkey, hnone]

/-- The single-item call sequence used by the C3 witness. -/
def c3WitnessOps : List ConvOp :=
  [.procEvent (itemCreatedEvent { id := "a", type := "message", role := "user" }) none]

/-- Witness for C3 at a concrete input: after creating item `"a"`, deleting
it removes it from both structures and a second delete raises
`ReferenceNotFound`. -/
theorem items_and_lookup_witness :
    aget "a" ((runOps emptyConv c3WitnessOps).processEvent
      (deletedEvent "a") none).1.itemLookup = none ∧
    "a" ∉ ((runOps emptyConv c3WitnessOps).processEvent (deletedEvent "a") none).1.items ∧
    (((runOps emptyConv c3WitnessOps).processEvent (deletedEvent "a") none).1.processEvent
        (deletedEvent "a") none).2 = .err (.referenceNotFound "item.deleted" "a") ∧
    (((runOps emptyConv c3WitnessOps).processEvent (deletedEvent "a") none).1.processEvent
        (deletedEvent "a") none).1
      = ((runOps emptyConv c3WitnessOps).processEvent (deletedEvent "a") none).1 :=
  (items_and_lookup_stay_consistent c3WitnessOps).2 "a" none (by decide)

/-! ## Re-delivery of `conversation.item.created` (claim C9) -/

/-- C9 (amended): when the created event's item id is already present,
re-processing `conversation.item.created` leaves `itemLookup`, `items` and
the responses untouched (the insertion is skipped and the stored item is
not modified), but it still consumes the queues: any queued speech record
and queued transcript for that id are deleted, and the pending input audio
is cleared when the re-delivered item is a user message. -/
theorem created_redelivery_effects (c : Conv) (e : Event) (ei : EventItem)
    (ctx : Option (List Sample))
    (hev : isFalsy e.event_id = false)
    (hty : e.type = some "conversation.item.created")
    (hi : e.item = some ei)
    (hp : (aget ei.id c.itemLookup).isSome = true) :
    (c.processEvent e ctx).1.itemLookup = c.itemLookup ∧
    (c.processEvent e ctx).1.items = c.items ∧
    (c.processEvent e ctx).1.responseLookup = c.responseLookup ∧
    (c.processEvent e ctx).1.responses = c.responses ∧
    (c.processEvent e ctx).1.queuedSpeechItems = aerase ei.id c.queuedSpeechItems ∧
    (c.processEvent e ctx).1.queuedTranscriptItems
      = aerase ei.id c.queuedTranscriptItems ∧
    (c.processEvent e ctx).1.queuedInputAudio
      = (if ei.type = "message" ∧ ei.role = "user" then none
         else c.queuedInputAudio) := by
  have hred : c.processEvent e ctx = procItemCreated c e :=
    processEvent_handler c e ctx "conversation.item.created" hev hty rfl rfl
  rw [hred]
  cases e with
  | mk eid ety eitem eiid esm eem eci etr edl ept ers erid =>
    cases hi
    refine ⟨?_, ?_, rfl, rfl, ?_, ?_, ?_⟩
    · show (if (aget ei.id c.itemLookup).isSome = true then c.itemLookup
        else _) = c.itemLookup
      rw [hp, if_pos rfl]
    · show (if (aget ei.id c.itemLookup).isSome = true then c.items else _) = c.items
      rw [hp, if_pos rfl]
    · show (match aget ei.id c.queuedSpeechItems with
        | some _ => aerase ei.id c.queuedSpeechItems
        | none => c.queuedSpeechItems) = aerase ei.id c.queuedSpeechItems
      cases hh : aget ei.id c.queuedSpeechItems
      · exact (aerase_of_aget_none hh).symm
      · rfl
    · show (match aget ei.id c.queuedTranscriptItems with
        | some _ => aerase ei.id c.queuedTranscriptItems
        | none => c.queuedTranscriptItems) = aerase ei.id c.queuedTranscriptItems
      cases hh : aget ei.id c.queuedTranscriptItems
      · exact (aerase_of_aget_none hh).symm
      · rfl
    · by_cases ht : ei.type = "message"
      · by_cases hr : ei.role = "user"
        · cases hq : c.queuedInputAudio <;> simp [procItemCreated, ht, hr, hq]
        · simp [procItemCreated, ht, hr]
      · by_cases h4 : ei.type = "function_call" <;>
          by_cases h5 : ei.type = "function_call_output" <;>
          simp [procItemCreated, ht, h4, h5]

/-- The message item re-delivered in the C9 counterexample. -/
def redeliveryItem : EventItem := { id := "a", type := "message", role := "assistant" }

/-- A reachable state holding item `"a"` and a queued speech record for
`"a"` (speech re-started after the item existed). -/
def redeliveryState : Conv :=
  runOps emptyConv
    [.procEvent (itemCreatedEvent redeliveryItem) none,
     .procEvent (speechStartedEvent "a" 0) none]

/-- C9 counterexample: re-delivering `conversation.item.created` for an id
already present does *not* leave the entire engine state unchanged — it
deletes the queued speech record for that id (the adopted audio goes to
the discarded clone), so the state after differs from the state before. -/
theorem created_redelivery_counterexample :
    (aget "a" redeliveryState.itemLookup).isSome = true ∧
    (aget "a" redeliveryState.queuedSpeechItems).isSome = true ∧
    (redeliveryState.processEvent (itemCreatedEvent redeliveryItem) none).1
      ≠ redeliveryState := by
  exact ⟨by decide, by decide, by decide⟩

/-- Witness for C9's amended theorem at the counterexample state. -/
theorem created_redelivery_witness :
    (redeliveryState.processEvent (itemCreatedEvent redeliveryItem) none).1.itemLookup
      = redeliveryState.itemLookup ∧
    (redeliveryState.processEvent (itemCreatedEvent redeliveryItem) none).1.items
      = redeliveryState.items ∧
    (redeliveryState.processEvent (itemCreatedEvent redeliveryItem)
        none).1.responseLookup = redeliveryState.responseLookup ∧
    (redeliveryState.processEvent (itemCreatedEvent redeliveryItem) none).1.responses
      = redeliveryState.responses ∧
    (redeliveryState.processEvent (itemCreatedEvent redeliveryItem)
        none).1.queuedSpeechItems
      = aerase redeliveryItem.id redeliveryState.queuedSpeechItems ∧
    (redeliveryState.processEvent (itemCreatedEvent redeliveryItem)
        none).1.queuedTranscriptItems
      = aerase redeliveryItem.id redeliveryState.queuedTranscriptItems ∧
    (redeliveryState.processEvent (itemCreatedEvent redeliveryItem)
        none).1.queuedInputAudio
      = (if redeliveryItem.type = "message" ∧ redeliveryItem.role = "user" then none
         else redeliveryState.queuedInputAudio) :=
  created_redelivery_effects redeliveryState (itemCreatedEvent redeliveryItem)
    redeliveryItem none (by decide) rfl rfl (by decide)

end Realtime
